import Mathlib

/-!
# Verification of the Praeparo configuration-composition and query-compilation pipeline

This file gives a shallow embedding, in Lean 4, of the algorithmic core of the
Praeparo repository:

* `src/praeparo/io/yaml_loader.py` — document composition (`_merge_dicts`,
  `_load_composed_yaml`), parameter binding (`_build_context`,
  `_render_with_context`, `_apply_parameter_templates`), and visual-type
  dispatch (`load_visual_config`, `load_matrix_config`, `_load_frame_config`);
* `src/praeparo/templating.py` — placeholder scanning, field-reference
  extraction and template rendering;
* `src/praeparo/dax.py` — DAX query-plan compilation;
* `src/praeparo/models/matrix.py` — schema validation of matrix documents;
* `src/praeparo/pipeline/core.py` — the values-present invariant check.

Python dictionaries are embedded as insertion-ordered association lists, YAML
scalars as an inductive `YVal` (floating-point scalars are outside the model),
file access as a finite map from path strings to parsed documents, and
exceptions as `Except`.  Recursion over the composition graph uses an explicit
fuel argument; a theorem below shows the canonical fuel can never run out, which
is the embedding of termination of the Python recursion.
-/

set_option maxHeartbeats 1000000

namespace Praeparo

/-- A parsed YAML value, as produced by `yaml.safe_load` and consumed by the
loader.  Mappings are insertion-ordered association lists, mirroring Python
`dict`.  (Praeparo documents in the claims under study use no floating-point
scalars, so floats are not modelled.) -/
inductive YVal where
  | null : YVal
  | bool (b : Bool) : YVal
  | int (n : Int) : YVal
  | str (s : String) : YVal
  | list (items : List YVal) : YVal
  | map (entries : List (String × YVal)) : YVal

/-- A YAML mapping (Python `dict[str, Any]`). -/
abbrev YDict := List (String × YVal)

/-- `d.get(k)` / `d[k]` on an insertion-ordered dictionary. -/
def lookupKey {α : Type} : List (String × α) → String → Option α
  | [], _ => none
  | (k, v) :: rest, key => if k = key then some v else lookupKey rest key

/-- `k in d` on a dictionary. -/
def containsKey {α : Type} (l : List (String × α)) (k : String) : Bool :=
  (lookupKey l k).isSome

/-- `d[k] = v` on an insertion-ordered dictionary: an existing key keeps its
position and gets the new value, a new key is appended at the end. -/
def setKey {α : Type} : List (String × α) → String → α → List (String × α)
  | [], key, v => [(key, v)]
  | (k, w) :: rest, key, v =>
      if k = key then (k, v) :: rest else (k, w) :: setKey rest key v

/-- `{a: b for a, b in d.items() if a != k}`: drop every entry with key `k`. -/
def removeKey {α : Type} (l : List (String × α)) (k : String) : List (String × α) :=
  l.filter (fun kv => kv.1 != k)

/-- Embedding of `_merge_dicts` (yaml_loader.py lines 47–58): start from a copy
of `base` and fold the entries of `update` over it; a key whose value is a
mapping on both sides is merged recursively, any other value replaces
wholesale. -/
def merge_dicts : YDict → YDict → YDict
  | base, [] => base
  | base, (key, v) :: rest =>
      match lookupKey base key, v with
      | some (YVal.map m1), YVal.map m2 =>
          merge_dicts (setKey base key (YVal.map (merge_dicts m1 m2))) rest
      | _, _ => merge_dicts (setKey base key v) rest
termination_by _ update => sizeOf update
decreasing_by
  all_goals simp_wf
  all_goals omega

/-- Errors raised during configuration loading (`ConfigLoadError` in the
source, with the distinct messages modelled as distinct constructors).
`outOfFuel` is an artefact of the fuel-based embedding of the recursion in
`_load_composed_yaml`; a theorem below shows it is unreachable at the
canonical fuel. -/
inductive LoadError where
  | cycle (chain : List String) : LoadError
  | ioRead (path : String) : LoadError
  | shape (msg : String) : LoadError
  | unresolved (msg : String) : LoadError
  | validation (msg : String) : LoadError
  | unsupportedType (path : String) : LoadError
  | outOfFuel : LoadError

/-- Python truthiness of a YAML value (`None`, `False`, `0`, `""`, `[]`, `{}`
are falsy). -/
def yTruthy : YVal → Bool
  | .null => false
  | .bool b => b
  | .int n => n != 0
  | .str s => s != ""
  | .list items => !items.isEmpty
  | .map entries => !entries.isEmpty

/-- Embedding of the `compose` normalisation in `_load_composed_yaml`
(yaml_loader.py lines 83–88): `compose = data.get("compose") or []`, a bare
string becomes a one-element list, and any other non-list value is a shape
error.  The per-entry string check stays in the resolution loop, as in the
source. -/
def getComposeList (data : YDict) : Except LoadError (List YVal) :=
  let raw := match lookupKey data "compose" with
    | none => YVal.null
    | some v => v
  let compose := if yTruthy raw then raw else YVal.list []
  match compose with
  | .str s => .ok [.str s]
  | .list items => .ok items
  | _ => .error (.shape "compose must be a list when provided")

/-- A filesystem of already-parsed YAML documents: path → root mapping.  Paths
are plain strings; `resolve` below stands for `(path.parent / entry).resolve()`. -/
abbrev DocFS := List (String × YDict)

/-- The parent-resolution loop of `_load_composed_yaml` (yaml_loader.py lines
90–96): resolve each compose entry in declared order against `load` (the
recursive loader at the remaining fuel), deep-merging results into `base`.
Non-string entries are a shape error, raised when the loop reaches them. -/
def loadParentsGo (load : String → List String → Except LoadError YDict)
    (resolve : String → String → String) (path : String) (stack : List String) :
    List YVal → YDict → Except LoadError YDict
  | [], base => .ok base
  | entry :: rest, base =>
    match entry with
    | .str s =>
        match load (resolve path s) stack with
        | .error e => .error e
        | .ok parent => loadParentsGo load resolve path stack rest (merge_dicts base parent)
    | _ => .error (.shape "compose entries must be strings")

/-- Embedding of `_load_composed_yaml` (yaml_loader.py lines 61–99), with an
explicit fuel in place of Python's unbounded recursion.  A path already on the
ancestry stack raises the composition-cycle error carrying the full chain; a
path outside the filesystem raises the read error; otherwise the compose
parents are resolved recursively with `stack + (path,)` and the document's own
keys (minus `compose`) are merged last. -/
def load_composed_yaml_fuel (resolve : String → String → String) (fs : DocFS) :
    Nat → String → List String → Except LoadError YDict
  | 0 => fun _ _ => .error .outOfFuel
  | Nat.succ n => fun path stack =>
    if path ∈ stack then
      .error (.cycle (stack ++ [path]))
    else
      match lookupKey fs path with
      | none => .error (.ioRead path)
      | some data =>
        match getComposeList data with
        | .error e => .error e
        | .ok entries =>
          match loadParentsGo (load_composed_yaml_fuel resolve fs n) resolve path
              (stack ++ [path]) entries [] with
          | .error e => .error e
          | .ok base => .ok (merge_dicts base (removeKey data "compose"))

/-- The number of filesystem paths not yet visited by the ancestry stack: the
termination measure of `_load_composed_yaml`. -/
def unvisitedCount (fs : DocFS) (stack : List String) : Nat :=
  ((fs.map Prod.fst).filter (fun k => !(stack.contains k))).length

/-- `_load_composed_yaml` at its canonical fuel, which (per
`load_composed_never_exhausts` below) always suffices. -/
def load_composed_yaml (resolve : String → String → String) (fs : DocFS)
    (path : String) (stack : List String) : Except LoadError YDict :=
  load_composed_yaml_fuel resolve fs (fs.length + 1) path stack

/-! ## Templating (`src/praeparo/templating.py`)

The placeholder grammar is the regex `\{\{\s*(?P<expr>[^}]+?)\s*\}\}`
(`JINJA_PLACEHOLDER`, also `PLACEHOLDER_RE` in yaml_loader.py).  Because
`[^}]` excludes `}`, a match consists of `{{`, a non-empty run of
non-`}` characters, and `}}`; the greedy `\s*` borders strip the
whitespace off the captured group (when the run is all whitespace, the
group is its last character).  On a failed candidate the scan resumes one
character after the opening brace, and matches are non-overlapping. -/

/-- The characters matched by `\s` (and stripped by `str.strip()`). -/
def isPySpace (c : Char) : Bool :=
  c == ' ' || c == '\t' || c == '\n' || c == '\r' || c == '\x0b' || c == '\x0c'

/-- `str.strip()` on a character list. -/
def pyStripChars (l : List Char) : List Char :=
  ((l.dropWhile isPySpace).reverse.dropWhile isPySpace).reverse

/-- `str.strip()`. -/
def pyStrip (s : String) : String :=
  String.mk (pyStripChars s.data)

/-- After an opening `{{`, try to complete a placeholder match: a non-empty
run of non-`}` characters followed by `}}`.  Returns the run and the
remainder after the closing braces. -/
def takeContent (l : List Char) : Option (List Char × List Char) :=
  match l.dropWhile (fun c => c != '}') with
  | '}' :: '}' :: rest =>
      if (l.takeWhile (fun c => c != '}')).isEmpty then none
      else some (l.takeWhile (fun c => c != '}'), rest)
  | _ => none

theorem takeContent_length {l content rest} (h : takeContent l = some (content, rest)) :
    rest.length + 2 ≤ l.length := by
  unfold takeContent at h
  split at h
  next heq =>
    split at h
    · exact absurd h (by simp)
    · cases h
      have hle : (l.dropWhile (fun c => c != '}')).length ≤ l.length :=
        (List.dropWhile_suffix _).length_le
      rw [heq] at hle
      simpa using Nat.le_trans (by simp) hle
  next => exact absurd h (by simp)

/-- The captured group of a completed placeholder match: the content with the
`\s*` borders stripped; for all-whitespace content the lazy `[^}]+?` keeps
exactly the last character. -/
def groupOfContent (content : List Char) : String :=
  let stripped := pyStripChars content
  if stripped.isEmpty then
    match content.getLast? with
    | some c => String.mk [c]
    | none => ""
  else String.mk stripped

/-- The placeholder scan (`JINJA_PLACEHOLDER.finditer`), with an explicit
fuel driving the recursion; on a completed match the scan resumes after the
closing braces, on a failed candidate one character after the opening brace.
`scanPlaceholders` below runs it at fuel = input length, which
`scanPlaceholdersF_stable` shows is always enough. -/
def scanPlaceholdersF : Nat → List Char → List String
  | 0, _ => []
  | _ + 1, [] => []
  | n + 1, '{' :: '{' :: rest =>
    (match takeContent rest with
     | some (content, rest2) => groupOfContent content :: scanPlaceholdersF n rest2
     | none => scanPlaceholdersF n ('{' :: rest))
  | n + 1, _ :: rest => scanPlaceholdersF n rest

/-- All placeholder groups of a template, in match order. -/
def scanPlaceholders (l : List Char) : List String :=
  scanPlaceholdersF l.length l

/-- `_clean_expression` (templating.py lines 38–40, also `_clean_placeholder`
in yaml_loader.py): drop a trailing `| filter` suffix and strip. -/
def cleanExpression (s : String) : String :=
  String.mk (pyStripChars (s.data.takeWhile (fun c => c != '|')))

/-- A data field referenced by a placeholder (templating.py `FieldReference`). -/
structure FieldReference where
  expression : String
  table : Option String
  column : String
  deriving DecidableEq

/-- `FieldReference.dax_reference`. -/
def FieldReference.daxReference (r : FieldReference) : String :=
  match r.table with
  | some t => if t = "" then "[" ++ r.column ++ "]" else t ++ "[" ++ r.column ++ "]"
  | none => "[" ++ r.column ++ "]"

/-- `FieldReference.placeholder`. -/
def FieldReference.placeholderText (r : FieldReference) : String :=
  match r.table with
  | some t => if t = "" then r.column else t ++ "." ++ r.column
  | none => r.column

/-- Errors raised by `_parse_field` (templating.py lines 43–60). -/
inductive TemplErr where
  | emptyPlaceholder : TemplErr
  | invalidField (expression : String) : TemplErr
  deriving DecidableEq

/-- Embedding of `_parse_field`: clean the expression, split on the first `.`
into an optional table and a required non-empty column. -/
def parse_field (expression : String) : Except TemplErr FieldReference :=
  let base := cleanExpression expression
  if base = "" then .error .emptyPlaceholder
  else if base.data.contains '.' then
    let tableRaw := String.mk (base.data.takeWhile (fun c => c != '.'))
    let columnRaw := String.mk ((base.data.dropWhile (fun c => c != '.')).drop 1)
    let table := pyStrip tableRaw
    let column := pyStrip columnRaw
    if column = "" then .error (.invalidField expression)
    else .ok { expression := base
               table := if table = "" then none else some table
               column := column }
  else
    .ok { expression := base, table := none, column := base }

/-- `OrderedDict.setdefault` keyed by `reference.expression`: keep the first
reference seen for each expression. -/
def setdefaultRef (acc : List FieldReference) (r : FieldReference) : List FieldReference :=
  if acc.any (fun q => q.expression == r.expression) then acc else acc ++ [r]

/-- The fold inside `extract_field_references` over the stream of placeholder
groups (a parse failure propagates, as the Python generator raises). -/
def extractGo : List String → List FieldReference → Except TemplErr (List FieldReference)
  | [], acc => .ok acc
  | g :: rest, acc =>
    match parse_field g with
    | .error e => .error e
    | .ok r => extractGo rest (setdefaultRef acc r)

/-- Embedding of `extract_field_references` (templating.py lines 70–77): scan
the templates in call order (the nested template/reference loops flattened
into one stream of groups) and dedupe by expression, keeping first-seen
order. -/
def extract_field_references (templates : List String) : Except TemplErr (List FieldReference) :=
  extractGo ((templates.map (fun t => scanPlaceholders t.data)).flatten) []

/-- A Python object held in a rendering context (`Mapping[str, object]`). -/
inductive PyVal where
  | vnone : PyVal
  | vstr (s : String) : PyVal
  | vint (n : Int) : PyVal
  | vbool (b : Bool) : PyVal
  deriving DecidableEq

/-- `str(value)` on the modelled objects. -/
def pyStr : PyVal → String
  | .vnone => "None"
  | .vstr s => s
  | .vint n => toString n
  | .vbool b => if b then "True" else "False"

/-- The `replace` callback of `render_template` (templating.py lines 83–88):
`values.get(expr)` is `None` both for an absent key and for a key bound to
`None`, and then the empty string is substituted; otherwise `str(value)`. -/
def substExpr (values : List (String × PyVal)) (group : String) : String :=
  match lookupKey values (cleanExpression group) with
  | none => ""
  | some .vnone => ""
  | some v => pyStr v

/-- `JINJA_PLACEHOLDER.sub(replace, template)`: copy text outside matches,
substitute each match; fuel-driven like the scan. -/
def renderCharsF (values : List (String × PyVal)) : Nat → List Char → List Char
  | 0, _ => []
  | _ + 1, [] => []
  | n + 1, '{' :: '{' :: rest =>
    (match takeContent rest with
     | some (content, rest2) =>
        (substExpr values (groupOfContent content)).data ++ renderCharsF values n rest2
     | none => '{' :: renderCharsF values n ('{' :: rest))
  | n + 1, c :: rest => c :: renderCharsF values n rest

/-- Embedding of `render_template` (templating.py lines 80–90).  Total: a
missing key never fails. -/
def render_template (template : String) (values : List (String × PyVal)) : String :=
  String.mk (renderCharsF values template.data.length template.data)

/-! ## Matrix model (`src/praeparo/models/matrix.py`) and DAX compilation
(`src/praeparo/dax.py`) -/

/-- `MatrixValueConfig`: a value column of a matrix visual. -/
structure MatrixValueConfig where
  id : String
  show_as : Option String := none
  label : Option String := none
  format : Option String := none
  deriving DecidableEq

/-- `RowTemplate`: a row dimension column of a matrix visual. -/
structure RowTemplate where
  template : String
  label : Option String := none
  hidden : Bool := false
  deriving DecidableEq

/-- `MatrixFilterConfig`: a declarative global filter.  (`includeVals` is the
source's `include` field, which is a reserved word in Lean.) -/
structure MatrixFilterConfig where
  field : Option String := none
  includeVals : Option (List String) := none
  expression : Option String := none
  deriving DecidableEq

/-- `MatrixTotals`. -/
inductive MatrixTotals where
  | off | row | column | both
  deriving DecidableEq

/-- `MatrixConfig`: a validated matrix visual (the `type` discriminator is the
literal `"matrix"` and is left implicit). -/
structure MatrixConfig where
  title : Option String := none
  description : Option String := none
  define : Option String := none
  rows : List RowTemplate
  values : List MatrixValueConfig
  totals : MatrixTotals := .off
  filters : List MatrixFilterConfig := []
  auto_height : Bool := true
  deriving DecidableEq

/-- `DaxQueryPlan` (dax.py lines 15–22). -/
structure DaxQueryPlan where
  statement : String
  rows : List FieldReference
  values : List String
  define : Option String := none
  deriving DecidableEq

/-- `value.label or value.id`: the alias under which a value column appears
(an empty label is falsy and also falls back to the id). -/
def labelOrId (v : MatrixValueConfig) : String :=
  match v.label with
  | some l => if l = "" then v.id else l
  | none => v.id

/-- `_escape_label` / `_escape_filter_value`: double every embedded quote. -/
def escape_quotes (s : String) : String :=
  String.mk (s.data.foldr (fun c acc => if c = '"' then '"' :: '"' :: acc else c :: acc) [])

/-- `_format_measure` (dax.py lines 32–36): bracket-quote the identifier
unless it is already bracket-quoted. -/
def format_measure (identifier : String) : String :=
  let trimmed := pyStrip identifier
  if trimmed.data.head? = some '[' ∧ trimmed.data.getLast? = some ']' then trimmed
  else "[" ++ trimmed ++ "]"

/-- ASCII `str.lower()` (the show-as vocabulary is ASCII). -/
def asciiLower (s : String) : String :=
  String.mk (s.data.map fun c =>
    if 'A' ≤ c ∧ c ≤ 'Z' then Char.ofNat (c.toNat + 32) else c)

/-- `SHOW_AS_PERCENT_COLUMN_TOTAL`. -/
def showAsPercentColumnTotal : String := "percent of column total"

/-- `field.table or field.dax_reference`: the REMOVEFILTERS target of a
non-primary row field. -/
def tableOrRef (f : FieldReference) : String :=
  match f.table with
  | some t => if t = "" then f.daxReference else t
  | none => f.daxReference

/-- Embedding of `_apply_show_as` (dax.py lines 39–54).  For
`"percent of column total"` (after trim + lowercase) with a non-empty row
list, the measure is rewritten to
`DIVIDE(M, CALCULATE(M, REMOVEFILTERS(last row field's full reference),
REMOVEFILTERS(other fields' table-or-reference)...))` — note the source
appends the last ("primary") field's clause first. -/
def apply_show_as (show_as : Option String) (measure : String)
    (row_fields : List FieldReference) : String :=
  match show_as with
  | none => measure
  | some s =>
    if s = "" then measure
    else
      let normalized := asciiLower (pyStrip s)
      if normalized = showAsPercentColumnTotal then
        match row_fields.getLast? with
        | none => measure
        | some primary =>
          let clauses := ("REMOVEFILTERS(" ++ primary.daxReference ++ ")")
            :: row_fields.dropLast.map (fun f => "REMOVEFILTERS(" ++ tableOrRef f ++ ")")
          "DIVIDE(" ++ measure ++ ", CALCULATE(" ++ measure ++ ", "
            ++ String.intercalate ", " clauses ++ "))"
      else measure

/-- `_split_field_reference` (dax.py lines 57–61): split on the first `.` and
strip both halves; with no `.` the tuple unpacking raises. -/
def split_field_reference (expression : String) : Except String (String × String) :=
  if expression.data.contains '.' then
    .ok (pyStrip (String.mk (expression.data.takeWhile (fun c => c != '.'))),
         pyStrip (String.mk ((expression.data.dropWhile (fun c => c != '.')).drop 1)))
  else .error "not enough values to unpack"

/-- `_format_column_reference`: `table[column]`. -/
def format_column_reference (expression : String) : Except String String :=
  match split_field_reference expression with
  | .ok (table, column) => .ok (table ++ "[" ++ column ++ "]")
  | .error e => .error e

/-- Embedding of `_format_filter_clause` (dax.py lines 74–82): a truthy
`expression` passes through verbatim; otherwise both a truthy `field` and a
truthy `include` are required and render as
`table[column] IN { "v1", "v2", ... }` with embedded quotes doubled. -/
def format_filter_clause (f : MatrixFilterConfig) : Except String String :=
  let fieldBranch : Except String String :=
    match f.field, f.includeVals with
    | some fld, some inc =>
      if fld = "" ∨ inc.isEmpty then
        .error "Filter configuration must define either an expression or field/include pair."
      else
        match format_column_reference fld with
        | .error e => .error e
        | .ok columnReference =>
          let values := String.intercalate ", "
            (inc.map (fun item => "\"" ++ escape_quotes item ++ "\""))
          .ok (columnReference ++ " IN \x7b " ++ values ++ " \x7d")
    | _, _ =>
      .error "Filter configuration must define either an expression or field/include pair."
  match f.expression with
  | some e => if e = "" then fieldBranch else .ok e
  | none => fieldBranch

/-- `_summarize_columns` (dax.py lines 85–91): rows then values, comma-newline
joined at four-space indentation. -/
def summarize_columns (rowLines valueLines : List String) : String :=
  let innerParts := rowLines ++ valueLines
  let innerBody := if innerParts.isEmpty then "" else String.intercalate ",\n    " innerParts
  "SUMMARIZECOLUMNS(\n    " ++ innerBody ++ "\n)"

/-- Split a character list at every `'\n'` (the effect of
`str.split("\n")`). -/
def splitNewlines : List Char → List (List Char)
  | [] => [[]]
  | '\n' :: rest => [] :: splitNewlines rest
  | c :: rest =>
    match splitNewlines rest with
    | [] => [[c]]
    | part :: parts => (c :: part) :: parts

/-- `str.splitlines()` for texts whose only line terminator is `\n` (the
compiled statements never contain `\r` or other terminators): a trailing
newline produces no trailing empty line. -/
def pySplitlines (s : String) : List String :=
  if s = "" then []
  else
    let parts := (splitNewlines s.data).map String.mk
    if parts.getLast? = some "" then parts.dropLast else parts

/-- `_indent_block` (dax.py lines 94–98). -/
def indent_block (text : String) : String :=
  match pySplitlines text with
  | [] => ""
  | lines => "    " ++ String.intercalate "\n    " lines

/-- `_wrap_with_filters` (dax.py lines 101–107). -/
def wrap_with_filters (body : String) (filterLines : List String) : String :=
  if filterLines.isEmpty then body
  else
    "CALCULATETABLE(\n" ++ indent_block body ++ ",\n"
      ++ String.intercalate ",\n" (filterLines.map (fun line => "    " ++ line)) ++ "\n)"

/-- Embedding of `build_matrix_query` (dax.py lines 110–147).  The single
Python loop over `config.values` that accumulates both the value lines and the
measure names is rendered as two maps. -/
def build_matrix_query (config : MatrixConfig) (row_fields : List FieldReference) :
    Except String DaxQueryPlan :=
  let ordered := row_fields
  let rowLines := ordered.map FieldReference.daxReference
  let valueLines := config.values.map (fun v =>
    "\"" ++ escape_quotes (labelOrId v) ++ "\", "
      ++ apply_show_as v.show_as (format_measure v.id) ordered)
  let measureNames := config.values.map (fun v => format_measure v.id)
  match config.filters.mapM format_filter_clause with
  | .error e => .error e
  | .ok filterLines =>
    let summarize := summarize_columns rowLines valueLines
    let body := if filterLines.isEmpty then summarize else wrap_with_filters summarize filterLines
    let defineBlock : Option String :=
      match config.define with
      | some d =>
        if d = "" then none
        else
          let candidate := pyStrip d
          if candidate = "" then none else some candidate
      | none => none
    let parts :=
      (match defineBlock with
       | some db => ["DEFINE\n" ++ db]
       | none => []) ++ ["EVALUATE\n" ++ body]
    .ok { statement := String.intercalate "\n\n" parts
          rows := ordered
          values := measureNames
          define := defineBlock }

/-! ## Parameter binding and schema validation (`src/praeparo/io/yaml_loader.py`,
`src/praeparo/models/matrix.py`) -/

/-- First-seen-order deduplication (the effect of iterating a Python `set`
built from a list is modelled after the subsequent `sorted`, so the
pre-sort order is irrelevant). -/
def dedupFirst (l : List String) : List String :=
  l.foldl (fun acc x => if x ∈ acc then acc else acc ++ [x]) []

/-- `sorted(set(l))`: deduplicate, then sort ascending (code-point order,
as Python `sorted` on `str`). -/
def sortedSet (l : List String) : List String :=
  List.insertionSort (· ≤ ·) (dedupFirst l)

/-- The `missing` accumulation of `_render_with_context` (yaml_loader.py
lines 34–38): the cleaned base expression of every placeholder absent from
the context (key membership, `expr not in context`), in match order. -/
def missing_placeholder_names (value : String)
    (context : List (String × String)) : List String :=
  ((scanPlaceholders value.data).map cleanExpression).filter
    (fun expr => !(containsKey context expr))

/-- Embedding of `_render_with_context` (yaml_loader.py lines 33–44): render,
and raise listing the missing names sorted and deduplicated, tagged with the
field's location. -/
def render_with_context (value : String) (context : List (String × String))
    (location : String) : Except LoadError String :=
  let missing := missing_placeholder_names value context
  let rendered := render_template value (context.map (fun kv => (kv.1, PyVal.vstr kv.2)))
  if missing.isEmpty then .ok rendered
  else
    .error (.unresolved ("Unresolved template variable(s) in " ++ location ++ ": "
      ++ String.intercalate ", " (sortedSet missing)))

/-- Python `repr` of a YAML value (used only through `str()` on non-scalar
parameter values; the quote-selection subtleties of `repr` on strings that
themselves contain quotes are not modelled). -/
def pyReprY : YVal → String
  | .null => "None"
  | .bool b => if b then "True" else "False"
  | .int n => toString n
  | .str s => "'" ++ s ++ "'"
  | .list items => "[" ++ String.intercalate ", " (items.attach.map (fun x => pyReprY x.1)) ++ "]"
  | .map entries =>
      "\x7b" ++ String.intercalate ", "
        (entries.attach.map (fun kv => "'" ++ kv.1.1 ++ "': " ++ pyReprY kv.1.2)) ++ "\x7d"
termination_by v => sizeOf v
decreasing_by
  all_goals simp_wf
  · have hm := List.sizeOf_lt_of_mem x.2
    omega
  · obtain ⟨⟨k, v2⟩, hmem⟩ := kv
    have hm := List.sizeOf_lt_of_mem hmem
    simp at hm ⊢
    omega

/-- Python `str()` of a YAML value. -/
def pyStrY : YVal → String
  | .null => "None"
  | .bool b => if b then "True" else "False"
  | .int n => toString n
  | .str s => s
  | v => pyReprY v

/-- Embedding of `_build_context` (yaml_loader.py lines 102–109): top-level
scalar document keys first, then the parameters map, later writes winning. -/
def build_context (data : YDict) (parameters : YDict) : List (String × String) :=
  let ctx := data.foldl (fun acc kv =>
    match kv.2 with
    | .str s => setKey acc kv.1 s
    | .int n => setKey acc kv.1 (toString n)
    | .bool b => setKey acc kv.1 (if b then "True" else "False")
    | _ => acc) []
  parameters.foldl (fun acc kv => setKey acc kv.1 (pyStrY kv.2)) ctx

/-- `"{{" in s`. -/
def hasDoubleBrace : List Char → Bool
  | '{' :: '{' :: _ => true
  | _ :: rest => hasDoubleBrace rest
  | [] => false

/-- Embedding of `_apply_parameter_templates` (yaml_loader.py lines 112–127):
re-render, through `_render_with_context`, exactly the allow-listed fields —
row labels and filter expressions that are strings containing `{{` — leaving
everything else untouched (the in-place mutation of the row/filter mappings
is rendered as rebuilding the lists). -/
def apply_parameter_templates (data : YDict) (context : List (String × String)) :
    Except LoadError YDict := do
  let data1 ←
    match lookupKey data "rows" with
    | some (.list rows) => do
        let rows2 ← rows.mapM (fun item =>
          match item with
          | .map m =>
            match lookupKey m "label" with
            | some (.str l) =>
              if hasDoubleBrace l.data then do
                let rendered ← render_with_context l context "row label"
                pure (YVal.map (setKey m "label" (.str rendered)))
              else pure item
            | _ => pure item
          | _ => pure item)
        pure (setKey data "rows" (.list rows2))
    | _ => pure data
  match lookupKey data1 "filters" with
  | some (.list filters) => do
      let filters2 ← filters.mapM (fun item =>
        match item with
        | .map m =>
          match lookupKey m "expression" with
          | some (.str e) =>
            if hasDoubleBrace e.data then do
              let rendered ← render_with_context e context "filter expression"
              pure (YVal.map (setKey m "expression" (.str rendered)))
            else pure item
          | _ => pure item
        | _ => pure item)
      pure (setKey data1 "filters" (.list filters2))
  | _ => pure data1

/-! ### Pydantic validation of `MatrixConfig` (models/matrix.py)

Pydantic v2 semantics relevant here: a field declared without a default
(`type`, `rows`, `values`, the value `id`, the row `template`) is required and
its absence is a validation error; `extra="forbid"` rejects unknown keys;
`populate_by_name=True` lets `auto_height` be populated by name or by its
alias `autoHeight`; `str` fields accept strings (and `None` where the
annotation is `str | None`) without numeric coercion.  Error messages are
collapsed into `LoadError.validation`; only the ok/error outcome is relied
upon, matching the `except ValidationError` wrapper in `_finalize_matrix_config`. -/

/-- Validate a `str | None` field value. -/
def expectOptStr (v : Option YVal) (what : String) : Except LoadError (Option String) :=
  match v with
  | none => .ok none
  | some .null => .ok none
  | some (.str s) => .ok (some s)
  | some _ => .error (.validation (what ++ " must be a string"))

/-- `_normalize_optional` (models/matrix.py): strip, empty becomes `None`. -/
def normalizeOptional (v : Option String) : Option String :=
  match v with
  | none => none
  | some s => let n := pyStrip s; if n = "" then none else some n

/-- Validate one `values` entry as a `MatrixValueConfig` (required non-empty
trimmed `id`, optional `show_as`/`label`/`format`, no extra keys). -/
def validateValueConfig (v : YVal) : Except LoadError MatrixValueConfig := do
  match v with
  | .map m =>
    if m.any (fun kv => !(["id", "show_as", "label", "format"].contains kv.1)) then
      throw (.validation "value: extra fields forbidden")
    else do
      let id ←
        match lookupKey m "id" with
        | some (.str s) =>
          let n := pyStrip s
          if n = "" then throw (.validation "Value id cannot be empty.") else pure n
        | some _ => throw (.validation "value id must be a string")
        | none => throw (.validation "value id is required")
      let showAs ← expectOptStr (lookupKey m "show_as") "show_as"
      let label ← expectOptStr (lookupKey m "label") "label"
      let format ← expectOptStr (lookupKey m "format") "format"
      pure { id := id
             show_as := normalizeOptional showAs
             label := normalizeOptional label
             format := normalizeOptional format }
  | _ => throw (.validation "value entries must be mappings")

/-- Validate one normalized `rows` entry as a `RowTemplate` (required
non-empty trimmed `template`, optional `label`, `hidden` boolean). -/
def validateRowTemplate (m : YDict) : Except LoadError RowTemplate := do
  if m.any (fun kv => !(["template", "label", "hidden"].contains kv.1)) then
    throw (.validation "row: extra fields forbidden")
  else do
    let template ←
      match lookupKey m "template" with
      | some (.str s) =>
        let n := pyStrip s
        if n = "" then throw (.validation "Row template cannot be empty.") else pure n
      | some _ => throw (.validation "row template must be a string")
      | none => throw (.validation "row template is required")
    let label ← expectOptStr (lookupKey m "label") "row label"
    let hidden ←
      match lookupKey m "hidden" with
      | none => pure false
      | some (.bool b) => pure b
      | some _ => throw (.validation "hidden must be a boolean")
    pure { template := template, label := normalizeOptional label, hidden := hidden }

/-- `_normalize_rows` (models/matrix.py lines 223–244): strings become
`{"template": item}`, mappings pass through, anything else fails; the list
must be non-empty. -/
def normalizeRows (v : Option YVal) : Except LoadError (List YDict) := do
  match v with
  | none => throw (.validation "rows field is required")
  | some .null => throw (.validation "Matrix requires at least one row template.")
  | some (.list items) => do
      let normalized ← items.mapM (fun item =>
        match item with
        | .str s => pure [("template", YVal.str s)]
        | .map m => pure m
        | _ => throw (.validation "Row definitions must be strings or mappings with template."))
      if normalized.isEmpty then throw (.validation "Matrix requires at least one row template.")
      else pure normalized
  | some _ => throw (.validation "rows must be provided as a list")

/-- `MatrixFilterConfig` field validators (models/matrix.py lines 107–174):
`field` stripped, non-empty, containing `.` with non-empty halves; `include`
normalized (string wrapped, items stripped, empties dropped, first-seen
dedup, non-empty); `expression` stripped non-empty; exactly one mode. -/
def validateFilterConfig (v : YVal) : Except LoadError MatrixFilterConfig := do
  match v with
  | .map m =>
    if m.any (fun kv => !(["field", "include", "expression"].contains kv.1)) then
      throw (.validation "filter: extra fields forbidden")
    else do
      let fieldVal ←
        match lookupKey m "field" with
        | none => pure none
        | some .null => pure none
        | some (.str s) =>
          let normalized := pyStrip s
          if normalized = "" then throw (.validation "Filter field cannot be empty.")
          else if !(normalized.data.contains '.') then
            throw (.validation "Filter field must be expressed as table.column.")
          else
            let left := normalized.data.takeWhile (fun c => c != '.')
            let right := (normalized.data.dropWhile (fun c => c != '.')).drop 1
            if left.isEmpty ∨ right.isEmpty then
              throw (.validation "Filter field must include both table and column.")
            else pure (some normalized)
        | some _ => throw (.validation "filter field must be a string")
      let includeVal ←
        match lookupKey m "include" with
        | none => pure none
        | some .null => pure none
        | some (.str s) => pure (some [s])
        | some (.list items) => do
            let strs ← items.mapM (fun item =>
              match item with
              | .str s => pure s
              | _ => throw (.validation "filter include items must be strings"))
            pure (some strs)
        | some _ => throw (.validation "filter include must be a list")
      let includeVal ←
        match includeVal with
        | none => pure none
        | some items =>
          let cleaned := (items.map pyStrip).filter (fun t => t != "")
          if cleaned.isEmpty then
            throw (.validation "Filter include list must contain at least one value.")
          else pure (some (dedupFirst cleaned))
      let expressionVal ←
        match lookupKey m "expression" with
        | none => pure none
        | some .null => pure none
        | some (.str s) =>
          let normalized := pyStrip s
          if normalized = "" then throw (.validation "Filter expression cannot be empty.")
          else pure (some normalized)
        | some _ => throw (.validation "filter expression must be a string")
      match expressionVal with
      | some _ =>
        if fieldVal.isSome ∨ includeVal.isSome then
          throw (.validation "Expression filters cannot include field/include properties.")
        else pure { field := fieldVal, includeVals := includeVal, expression := expressionVal }
      | none =>
        if fieldVal.isNone ∨ includeVal.isNone then
          throw (.validation "Field filters must provide both field and include.")
        else pure { field := fieldVal, includeVals := includeVal, expression := expressionVal }
  | _ => throw (.validation "filter entries must be mappings")

/-- `MatrixTotals` coercion. -/
def validateTotals (v : Option YVal) : Except LoadError MatrixTotals :=
  match v with
  | none => .ok .off
  | some (.str "off") => .ok .off
  | some (.str "row") => .ok .row
  | some (.str "column") => .ok .column
  | some (.str "both") => .ok .both
  | some _ => .error (.validation "totals must be one of off/row/column/both")

/-- Embedding of `MatrixConfig.model_validate` for the model declared in
models/matrix.py: required `type` literal `"matrix"`, required non-empty
`rows` and `values`, unique value ids, labels defaulted to ids, optional
`totals`/`filters`/`define`/`autoHeight`, unknown keys forbidden. -/
def validate_matrix (data : YDict) : Except LoadError MatrixConfig := do
  let allowed := ["type", "title", "description", "define", "rows", "values",
                  "totals", "filters", "autoHeight", "auto_height"]
  if data.any (fun kv => !(allowed.contains kv.1)) then
    throw (.validation "extra fields forbidden")
  else do
    match lookupKey data "type" with
    | some (.str "matrix") => pure ()
    | some _ => throw (.validation "type: input should be matrix")
    | none => throw (.validation "type: field required")
    let title ← expectOptStr (lookupKey data "title") "title"
    let description ← expectOptStr (lookupKey data "description") "description"
    let defineRaw ← expectOptStr (lookupKey data "define") "define"
    let rowMaps ← normalizeRows (lookupKey data "rows")
    let rows ← rowMaps.mapM validateRowTemplate
    let values ←
      match lookupKey data "values" with
      | some (.list items) =>
        if items.isEmpty then throw (.validation "values must be non-empty")
        else items.mapM validateValueConfig
      | some _ => throw (.validation "values must be a list")
      | none => throw (.validation "values: field required")
    let totals ← validateTotals (lookupKey data "totals")
    let filters ←
      match lookupKey data "filters" with
      | none => pure []
      | some (.list items) => items.mapM validateFilterConfig
      | some _ => throw (.validation "filters must be a list")
    let autoHeightRaw :=
      match lookupKey data "autoHeight" with
      | some v => some v
      | none => lookupKey data "auto_height"
    let autoHeight ←
      match autoHeightRaw with
      | none => pure true
      | some (.bool b) => pure b
      | some _ => throw (.validation "autoHeight must be a boolean")
    let ids := values.map (fun v => v.id)
    if ids.dedup.length = ids.length then do
      let values := values.map (fun v =>
        match v.label with
        | none => { v with label := some v.id }
        | some _ => v)
      pure { title := title
             description := description
             define := normalizeOptional defineRaw
             rows := rows
             values := values
             totals := totals
             filters := filters
             auto_height := autoHeight }
    else throw (.validation "Matrix values must use unique ids.")

/-- Embedding of `_finalize_matrix_config` (yaml_loader.py lines 130–143):
pop `parameters` (falsy becomes `{}`, non-mapping fails), build the flat
string context, re-render the allow-listed templated fields, validate. -/
def finalize_matrix_config (data : YDict) : Except LoadError MatrixConfig := do
  let parametersRaw :=
    match lookupKey data "parameters" with
    | none => YVal.map []
    | some v => if yTruthy v then v else YVal.map []
  let parameters ←
    match parametersRaw with
    | .map m => pure m
    | _ => throw (.shape "parameters must be a mapping when provided")
  let data := removeKey data "parameters"
  let context := build_context data parameters
  let data ← apply_parameter_templates data context
  validate_matrix data

/-- `{**a, **b}`: shallow dictionary update. -/
def shallowUpdate (base update : YDict) : YDict :=
  update.foldl (fun acc kv => setKey acc kv.1 kv.2) base

/-- Embedding of `load_matrix_config` (yaml_loader.py lines 146–168): resolve
the compose chain, deep-merge structural overrides, shallow-merge parameter
overrides into the document's `parameters`, finalize. -/
def load_matrix_config (resolve : String → String → String) (fs : DocFS)
    (path : String) (parametersOverride : Option YDict) (overrides : Option YDict)
    (stack : List String) : Except LoadError MatrixConfig := do
  let merged ← load_composed_yaml resolve fs path stack
  let merged :=
    match overrides with
    | some o => if o.isEmpty then merged else merge_dicts merged o
    | none => merged
  let merged ←
    match parametersOverride with
    | some po =>
      if po.isEmpty then pure merged
      else do
        let existingRaw :=
          match lookupKey merged "parameters" with
          | none => YVal.map []
          | some v => if yTruthy v then v else YVal.map []
        match existingRaw with
        | .map m => pure (setKey merged "parameters" (.map (shallowUpdate m po)))
        | _ => throw (.shape "parameters must be a mapping when provided")
    | none => pure merged
  finalize_matrix_config merged

/-- A resolved frame child (`FrameChildConfig`). -/
structure FrameChildConfig where
  source : String
  config : MatrixConfig
  parameters : List (String × String)

/-- A resolved frame visual (`FrameConfig`). -/
structure FrameConfig where
  title : Option String
  layout : String
  auto_height : Bool
  show_titles : Bool
  children : List FrameChildConfig

/-- Embedding of `_load_frame_config` (yaml_loader.py lines 171–235).  Each
child's matrix is loaded through `load_matrix_config` with the child's
parameters and structural overrides and with ancestry `stack + (path,)`. -/
def load_frame_config (resolve : String → String → String) (fs : DocFS)
    (path : String) (data : YDict) (stack : List String) : Except LoadError FrameConfig := do
  let children ←
    match lookupKey data "children" with
    | some (.list cs) =>
      if cs.isEmpty then
        throw (.shape "Frame configuration must define a non-empty children list")
      else pure cs
    | _ => throw (.shape "Frame configuration must define a non-empty children list")
  let layout := asciiLower (pyStrY
    (match lookupKey data "layout" with
     | none => YVal.str "vertical"
     | some v => v))
  if !(["vertical", "horizontal"].contains layout) then
    throw (.shape "Unsupported frame layout")
  else do
    let rawAuto0 :=
      match lookupKey data "autoHeight" with
      | none => YVal.null
      | some v => v
    let rawAuto :=
      match rawAuto0 with
      | .null =>
        (match lookupKey data "auto_height" with
         | none => YVal.null
         | some v => v)
      | v => v
    let autoHeight ←
      match rawAuto with
      | .null => pure true
      | .bool b => pure b
      | _ => throw (.shape "autoHeight must be a boolean when provided")
    let showTitles :=
      match lookupKey data "show_titles" with
      | none => false
      | some v => yTruthy v
    let title ← expectOptStr (lookupKey data "title") "frame title"
    let resolvedChildren ← children.mapM (fun entry => do
      match entry with
      | YVal.map e => do
        let ref ←
          match lookupKey e "ref" with
          | some (.str s) =>
            if pyStrip s = "" then throw (.shape "Frame child is missing a ref path")
            else pure s
          | _ => throw (.shape "Frame child is missing a ref path")
        let childPath := resolve path ref
        let parametersRaw :=
          match lookupKey e "parameters" with
          | none => YVal.map []
          | some v => if yTruthy v then v else YVal.map []
        let parameters ←
          match parametersRaw with
          | .map pm => pure pm
          | _ => throw (.shape "Child parameters must be a mapping")
        let childOverrides := removeKey (removeKey e "ref") "parameters"
        let childConfig ← load_matrix_config resolve fs childPath
          (some parameters) (some childOverrides) (stack ++ [path])
        pure { source := childPath
               config := childConfig
               parameters := parameters.map (fun kv => (kv.1, pyStrY kv.2)) }
      | _ => throw (.shape "Frame child must be a mapping"))
    pure { title := title
           layout := layout
           auto_height := autoHeight
           show_titles := showTitles
           children := resolvedChildren }

/-- The union returned by `load_visual_config`. -/
inductive VisualConfig where
  | matrix (config : MatrixConfig) : VisualConfig
  | frame (config : FrameConfig) : VisualConfig

/-- `visual_type is None`: the `type` key is absent or bound to YAML null. -/
def isNullY : YVal → Bool
  | .null => true
  | _ => false

/-- `visual_type == s` for a Python string comparison. -/
def isStrEq (v : YVal) (s : String) : Bool :=
  match v with
  | .str t => t == s
  | _ => false

/-- Embedding of `load_visual_config` (yaml_loader.py lines 238–253): resolve
the compose chain and discriminate on `type` — absent (or null) and
`"matrix"` both finalize a matrix ("Treat missing type as matrix for
backward compatibility"), `"frame"` loads a frame with ancestry
`(resolved,)`, anything else is the unsupported-visual-type error. -/
def load_visual_config (resolve : String → String → String) (fs : DocFS)
    (path : String) : Except LoadError VisualConfig := do
  let merged ← load_composed_yaml resolve fs path []
  let visualType :=
    match lookupKey merged "type" with
    | none => YVal.null
    | some v => v
  if isStrEq visualType "matrix" || isNullY visualType then
    VisualConfig.matrix <$> finalize_matrix_config merged
  else if isStrEq visualType "frame" then
    VisualConfig.frame <$> load_frame_config resolve fs path merged [path]
  else
    throw (.unsupportedType (pyStrY visualType ++ " in " ++ path))

/-! ## The values-present invariant check (`src/praeparo/pipeline/core.py`) -/

/-- `first_row.get(alias) is None`: the alias is absent or bound to `None`
on the row. -/
def isNoneAt (row : List (String × PyVal)) (key : String) : Bool :=
  match lookupKey row key with
  | none => true
  | some .vnone => true
  | some _ => false

/-- Embedding of the `ensure_values_present` invariant check of
`_MatrixStrategy.execute` (pipeline/core.py lines 178–183): with a non-empty
dataset, every declared value's alias (`value.label or value.id`) must be
present and non-null on the first row; the first violation raises.  The
check reads the dataset and returns nothing — it never modifies it. -/
def ensure_values_present (values : List MatrixValueConfig)
    (rows : List (List (String × PyVal))) : Except String Unit :=
  match rows with
  | [] => .ok ()
  | firstRow :: _ =>
    match values.find? (fun v => isNoneAt firstRow (labelOrId v)) with
    | some v => .error ("Value '" ++ labelOrId v ++ "' missing from dataset row")
    | none => .ok ()

/-- The cleaned base expression of every placeholder across the templates,
in call order: the key stream over which `extract_field_references`
deduplicates. -/
def normalized_placeholder_exprs (templates : List String) : List String :=
  ((templates.map (fun t => scanPlaceholders t.data)).flatten).map cleanExpression

/-- The value that `_merge_dicts` stores at a key claimed by the update:
recursive merge when a mapping overlaps a mapping, the update's value
otherwise. -/
def mergedValue (base : YDict) (key : String) : YVal → YVal
  | YVal.map m2 =>
    (match lookupKey base key with
     | some (YVal.map m1) => YVal.map (merge_dicts m1 m2)
     | _ => YVal.map m2)
  | v => v

/-! ## Theorems -/

theorem lookupKey_setKey_self {α : Type} (l : List (String × α)) (k : String) (v : α) :
    lookupKey (setKey l k v) k = some v := by
  induction l with
  | nil => simp [setKey, lookupKey]
  | cons kv rest ih =>
    obtain ⟨k0, v0⟩ := kv
    by_cases hk : k0 = k
    · simp [setKey, lookupKey, hk]
    · simp [setKey, lookupKey, hk, ih]

theorem lookupKey_setKey_ne {α : Type} (l : List (String × α)) {k0 k : String} (v : α)
    (hne : k0 ≠ k) : lookupKey (setKey l k0 v) k = lookupKey l k := by
  induction l with
  | nil => simp [setKey, lookupKey, hne]
  | cons kv rest ih =>
    obtain ⟨k1, v1⟩ := kv
    by_cases hk : k1 = k0
    · subst hk
      simp [setKey, lookupKey, hne]
    · simp [setKey, lookupKey, hk, ih]

theorem merge_dicts_nil (base : YDict) : merge_dicts base [] = base := by
  rw [merge_dicts]

theorem merge_dicts_cons_mapmap {base : YDict} {k : String} {m1 m2 : YDict} (rest : YDict)
    (h : lookupKey base k = some (YVal.map m1)) :
    merge_dicts base ((k, YVal.map m2) :: rest) =
      merge_dicts (setKey base k (YVal.map (merge_dicts m1 m2))) rest := by
  rw [merge_dicts]
  exact h

theorem merge_dicts_cons_other {base : YDict} {k : String} {v : YVal} (rest : YDict)
    (h : ∀ m1 m2, ¬(lookupKey base k = some (YVal.map m1) ∧ v = YVal.map m2)) :
    merge_dicts base ((k, v) :: rest) = merge_dicts (setKey base k v) rest := by
  rw [merge_dicts]
  intro m1 m2 h1 h2
  exact h m1 m2 ⟨h1, h2⟩

theorem mergedValue_congr {b1 b2 : YDict} {k : String} (v : YVal)
    (h : lookupKey b1 k = lookupKey b2 k) : mergedValue b1 k v = mergedValue b2 k v := by
  cases v <;> simp [mergedValue, h]

theorem merge_dicts_cons_eq (base : YDict) (k : String) (v : YVal) (rest : YDict) :
    merge_dicts base ((k, v) :: rest) =
      merge_dicts (setKey base k (mergedValue base k v)) rest := by
  cases v with
  | map m2 =>
    cases hl : lookupKey base k with
    | none =>
      rw [merge_dicts_cons_other rest (by simp [hl]), mergedValue, hl]
    | some w =>
      cases w with
      | map m1 => rw [merge_dicts_cons_mapmap rest hl, mergedValue, hl]
      | null => rw [merge_dicts_cons_other rest (by simp [hl]), mergedValue, hl]
      | bool b => rw [merge_dicts_cons_other rest (by simp [hl]), mergedValue, hl]
      | int n => rw [merge_dicts_cons_other rest (by simp [hl]), mergedValue, hl]
      | str s => rw [merge_dicts_cons_other rest (by simp [hl]), mergedValue, hl]
      | list items => rw [merge_dicts_cons_other rest (by simp [hl]), mergedValue, hl]
  | null => rw [merge_dicts_cons_other rest (by simp)]; rfl
  | bool b => rw [merge_dicts_cons_other rest (by simp)]; rfl
  | int n => rw [merge_dicts_cons_other rest (by simp)]; rfl
  | str s => rw [merge_dicts_cons_other rest (by simp)]; rfl
  | list items => rw [merge_dicts_cons_other rest (by simp)]; rfl

/-- A key not claimed by the update keeps its base binding. -/
theorem lookup_merge_of_update_none (base update : YDict) (k : String)
    (h : lookupKey update k = none) :
    lookupKey (merge_dicts base update) k = lookupKey base k := by
  induction update generalizing base with
  | nil => simp [merge_dicts_nil]
  | cons kv rest ih =>
    obtain ⟨k0, v0⟩ := kv
    have hk0 : k0 ≠ k := by
      intro hq
      simp [lookupKey, hq] at h
    have hrest : lookupKey rest k = none := by
      simpa [lookupKey, hk0] using h
    rw [merge_dicts_cons_eq, ih _ hrest]
    exact lookupKey_setKey_ne _ _ hk0

theorem lookupKey_eq_none_of_not_mem {α : Type} {l : List (String × α)} {k : String}
    (h : ¬ k ∈ l.map Prod.fst) : lookupKey l k = none := by
  induction l with
  | nil => rfl
  | cons kv rest ih =>
    obtain ⟨k0, v0⟩ := kv
    simp only [List.map_cons, List.mem_cons] at h
    push_neg at h
    have hne : k0 ≠ k := fun hq => h.1 hq.symm
    simp only [lookupKey, hne, if_false]
    exact ih h.2

/-- A key claimed by a duplicate-free update ends up bound to `mergedValue`:
the recursive merge on overlapping mappings, the update's value wholesale
otherwise. -/
theorem lookup_merge_of_update_some (base update : YDict) (k : String) (v : YVal)
    (hnd : (update.map Prod.fst).Nodup) (h : lookupKey update k = some v) :
    lookupKey (merge_dicts base update) k = some (mergedValue base k v) := by
  induction update generalizing base with
  | nil => simp [lookupKey] at h
  | cons kv rest ih =>
    obtain ⟨k0, v0⟩ := kv
    rw [List.map_cons, List.nodup_cons] at hnd
    rw [merge_dicts_cons_eq]
    by_cases hk : k0 = k
    · subst hk
      have hv : v0 = v := by simpa [lookupKey] using h
      subst hv
      have hrest : lookupKey rest k0 = none := lookupKey_eq_none_of_not_mem hnd.1
      rw [lookup_merge_of_update_none _ _ _ hrest]
      exact lookupKey_setKey_self _ _ _
    · have hrest : lookupKey rest k = some v := by
        simpa [lookupKey, hk] using h
      rw [ih _ hnd.2 hrest]
      exact congrArg some (mergedValue_congr v (lookupKey_setKey_ne _ _ hk))

/-- A key absent from both sides is absent from the merge. -/
theorem lookup_merge_none_none (base update : YDict) (k : String)
    (h1 : lookupKey base k = none) (h2 : lookupKey update k = none) :
    lookupKey (merge_dicts base update) k = none := by
  rw [lookup_merge_of_update_none _ _ _ h2]
  exact h1

theorem lookup_removeKey_self {α : Type} (l : List (String × α)) (k : String) :
    lookupKey (removeKey l k) k = none := by
  induction l with
  | nil => rfl
  | cons kv rest ih =>
    obtain ⟨k0, v0⟩ := kv
    by_cases hk : k0 = k
    · simpa [removeKey, hk] using ih
    · simpa [removeKey, lookupKey, hk] using ih

theorem mem_keys_of_lookup_some {α : Type} {l : List (String × α)} {k : String} {v : α}
    (h : lookupKey l k = some v) : k ∈ l.map Prod.fst := by
  induction l with
  | nil => simp [lookupKey] at h
  | cons kv rest ih =>
    obtain ⟨k0, v0⟩ := kv
    by_cases hk : k0 = k
    · simp [hk]
    · simp only [lookupKey, hk, if_false] at h
      simp [ih h]

/-- Results of the parent loop contain no `compose` key, provided the
recursive loader's results do not and the accumulator does not. -/
theorem loadParentsGo_ok_no_compose {load : String → List String → Except LoadError YDict}
    {resolve : String → String → String} {path : String} {stack : List String}
    (hload : ∀ p st doc, load p st = .ok doc → lookupKey doc "compose" = none) :
    ∀ entries base doc, lookupKey base "compose" = none →
      loadParentsGo load resolve path stack entries base = .ok doc →
      lookupKey doc "compose" = none := by
  intro entries
  induction entries with
  | nil =>
    intro base doc hb h
    simp only [loadParentsGo] at h
    cases h
    exact hb
  | cons e rest ih =>
    intro base doc hb h
    cases e with
    | str s =>
      cases hcall : load (resolve path s) stack with
      | error err => simp [loadParentsGo, hcall] at h
      | ok parent =>
        have hp := hload _ _ _ hcall
        exact ih _ _ (lookup_merge_none_none _ _ _ hb hp)
          (by simpa [loadParentsGo, hcall] using h)
    | null => simp [loadParentsGo] at h
    | bool b => simp [loadParentsGo] at h
    | int n => simp [loadParentsGo] at h
    | list items => simp [loadParentsGo] at h
    | map entries2 => simp [loadParentsGo] at h

/-- Any successful `_load_composed_yaml` result is free of the `compose`
key, at every fuel. -/
theorem load_composed_fuel_ok_no_compose :
    ∀ (fuel : Nat) (resolve : String → String → String) (fs : DocFS)
      (path : String) (stack : List String) (doc : YDict),
      load_composed_yaml_fuel resolve fs fuel path stack = .ok doc →
      lookupKey doc "compose" = none := by
  intro fuel
  induction fuel with
  | zero =>
    intro resolve fs path stack doc h
    simp [load_composed_yaml_fuel] at h
  | succ n ih =>
    intro resolve fs path stack doc h
    rw [load_composed_yaml_fuel] at h
    by_cases hmem : path ∈ stack
    · simp [hmem] at h
    · simp only [hmem, if_false] at h
      cases hfind : lookupKey fs path with
      | none => simp [hfind] at h
      | some data =>
        simp only [hfind] at h
        cases hcomp : getComposeList data with
        | error e => simp [hcomp] at h
        | ok entries =>
          simp only [hcomp] at h
          cases hpar : loadParentsGo (load_composed_yaml_fuel resolve fs n) resolve path
              (stack ++ [path]) entries [] with
          | error e => simp [hpar] at h
          | ok base =>
            simp only [hpar] at h
            cases h
            exact lookup_merge_none_none _ _ _
              (loadParentsGo_ok_no_compose (fun p st d hd => ih resolve fs p st d hd)
                entries [] base rfl hpar)
              (lookup_removeKey_self _ _)

theorem length_filter_le_of_imp {p q : String → Bool} (himp : ∀ a, p a = true → q a = true) :
    ∀ l : List String, (l.filter p).length ≤ (l.filter q).length := by
  intro l
  induction l with
  | nil => simp
  | cons a tl ih =>
    cases hp : p a with
    | true =>
      rw [List.filter_cons_of_pos hp, List.filter_cons_of_pos (himp a hp)]
      simpa using ih
    | false =>
      rw [List.filter_cons_of_neg (by simp [hp])]
      cases hq : q a with
      | true =>
        rw [List.filter_cons_of_pos hq]
        exact Nat.le_trans ih (by simp)
      | false =>
        rw [List.filter_cons_of_neg (by simp [hq])]
        exact ih

theorem length_filter_lt_of_witness {p q : String → Bool}
    (himp : ∀ a, p a = true → q a = true) :
    ∀ (l : List String) (x : String), x ∈ l → p x = false → q x = true →
      (l.filter p).length < (l.filter q).length := by
  intro l
  induction l with
  | nil => intro x hx; simp at hx
  | cons a tl ih =>
    intro x hx hpx hqx
    rcases List.mem_cons.mp hx with hxa | hxtl
    · subst hxa
      rw [List.filter_cons_of_neg (by simp [hpx]), List.filter_cons_of_pos hqx]
      exact Nat.lt_succ_of_le (length_filter_le_of_imp himp tl)
    · have hlt := ih x hxtl hpx hqx
      cases hp : p a with
      | true =>
        rw [List.filter_cons_of_pos hp, List.filter_cons_of_pos (himp a hp)]
        simpa using hlt
      | false =>
        rw [List.filter_cons_of_neg (by simp [hp])]
        cases hq : q a with
        | true =>
          rw [List.filter_cons_of_pos hq]
          exact Nat.lt_succ_of_lt hlt
        | false =>
          rw [List.filter_cons_of_neg (by simp [hq])]
          exact hlt

/-- Visiting an unvisited filesystem path strictly shrinks the termination
measure of `_load_composed_yaml`. -/
theorem unvisited_lt {fs : DocFS} {path : String} {stack : List String}
    (hmem : path ∈ fs.map Prod.fst) (hstk : path ∉ stack) :
    unvisitedCount fs (stack ++ [path]) < unvisitedCount fs stack := by
  refine length_filter_lt_of_witness ?_ (fs.map Prod.fst) path hmem ?_ ?_
  · intro a ha
    simp only [Bool.not_eq_true', List.elem_eq_mem, decide_eq_false_iff_not,
      List.mem_append] at ha ⊢
    exact fun hin => ha (Or.inl hin)
  · simp [List.elem_eq_mem]
  · simp [List.elem_eq_mem, hstk]

theorem unvisited_le_length (fs : DocFS) (stack : List String) :
    unvisitedCount fs stack ≤ fs.length := by
  calc ((fs.map Prod.fst).filter _).length ≤ (fs.map Prod.fst).length :=
        List.length_filter_le _ _
    _ = fs.length := List.length_map _ _

theorem getComposeList_ne_outOfFuel (data : YDict) :
    getComposeList data ≠ .error .outOfFuel := by
  unfold getComposeList
  split
  all_goals dsimp only
  all_goals split
  all_goals simp

/-- With the recursive loader known not to exhaust its fuel on the shared
stack, the parent loop never reports fuel exhaustion either. -/
theorem loadParentsGo_no_fuel {resolve : String → String → String} {fs : DocFS} {n : Nat}
    (A : ∀ path stack, unvisitedCount fs stack < n →
      load_composed_yaml_fuel resolve fs n path stack ≠ .error .outOfFuel) :
    ∀ (entries : List YVal) (path : String) (stack : List String) (base : YDict),
      unvisitedCount fs stack < n →
      loadParentsGo (load_composed_yaml_fuel resolve fs n) resolve path stack entries base
        ≠ .error .outOfFuel := by
  intro entries
  induction entries with
  | nil => intro path stack base hlt; simp [loadParentsGo]
  | cons e rest ih =>
    intro path stack base hlt
    cases e with
    | str s =>
      cases hcall : load_composed_yaml_fuel resolve fs n (resolve path s) stack with
      | error err =>
        simp only [loadParentsGo, hcall]
        intro hq
        cases hq
        exact A _ _ hlt hcall
      | ok parent =>
        simp only [loadParentsGo, hcall]
        exact ih _ _ _ hlt
    | null => simp [loadParentsGo]
    | bool b => simp [loadParentsGo]
    | int n2 => simp [loadParentsGo]
    | list items => simp [loadParentsGo]
    | map entries2 => simp [loadParentsGo]

/-- With fuel exceeding the number of unvisited paths, `_load_composed_yaml`
never exhausts it: the embedding of termination of the Python recursion. -/
theorem load_composed_fuel_no_exhaust (resolve : String → String → String) (fs : DocFS) :
    ∀ (n : Nat) (path : String) (stack : List String), unvisitedCount fs stack < n →
      load_composed_yaml_fuel resolve fs n path stack ≠ .error .outOfFuel := by
  intro n
  induction n with
  | zero => intro path stack h; omega
  | succ n ih =>
    intro path stack hn
    rw [load_composed_yaml_fuel]
    by_cases hmem : path ∈ stack
    · simp [hmem]
    · simp only [hmem, if_false]
      cases hfind : lookupKey fs path with
      | none => simp
      | some data =>
        cases hcomp : getComposeList data with
        | error e =>
          simp only [hcomp]
          intro hq
          cases hq
          exact getComposeList_ne_outOfFuel data hcomp
        | ok entries =>
          simp only [hcomp]
          have hlt : unvisitedCount fs (stack ++ [path]) < n :=
            Nat.lt_of_lt_of_le (unvisited_lt (mem_keys_of_lookup_some hfind) hmem)
              (Nat.lt_succ_iff.mp hn)
          cases hpar : loadParentsGo (load_composed_yaml_fuel resolve fs n) resolve path
              (stack ++ [path]) entries [] with
          | error e =>
            intro hq
            cases hq
            exact loadParentsGo_no_fuel ih entries path (stack ++ [path]) [] hlt hpar
          | ok base => simp

/-- At its canonical fuel, `_load_composed_yaml` can never run out:
its recursion always terminates. -/
theorem load_composed_never_exhausts (resolve : String → String → String) (fs : DocFS)
    (path : String) (stack : List String) :
    load_composed_yaml resolve fs path stack ≠ .error .outOfFuel :=
  load_composed_fuel_no_exhaust resolve fs (fs.length + 1) path stack
    (Nat.lt_succ_of_le (unvisited_le_length fs stack))

/-- The cycle guard of `_load_composed_yaml`: a path already on its own
ancestry stack fails immediately with the full chain. -/
theorem load_composed_cycle (resolve : String → String → String) (fs : DocFS)
    (path : String) (stack : List String) (h : path ∈ stack) :
    load_composed_yaml resolve fs path stack = .error (.cycle (stack ++ [path])) := by
  rw [load_composed_yaml, load_composed_yaml_fuel]
  simp [h]

/-- `load_matrix_config` inherits the cycle error: its first step is
`_load_composed_yaml`, whose failure aborts the whole load. -/
theorem load_matrix_cycle (resolve : String → String → String) (fs : DocFS)
    (path : String) (parametersOverride overrides : Option YDict) (stack : List String)
    (h : path ∈ stack) :
    load_matrix_config resolve fs path parametersOverride overrides stack
      = .error (.cycle (stack ++ [path])) := by
  rw [load_matrix_config, load_composed_cycle resolve fs path stack h]
  rfl

/-- C1: compose resolution is an override-dominant deep merge — on a
duplicate-free update (a parsed YAML mapping), a key bound to mappings on
both sides merges recursively, any other overlapping value is replaced
wholesale by the later source, keys untouched by the update keep their
accumulated binding (so the composing document's own keys, merged last,
always win), and every successful `_load_composed_yaml` result is free of
the `compose` key. -/
theorem compose_resolution_deep_merge :
    (∀ (base update : YDict) (k : String) (m1 m2 : YDict),
       (update.map Prod.fst).Nodup →
       lookupKey base k = some (YVal.map m1) →
       lookupKey update k = some (YVal.map m2) →
       lookupKey (merge_dicts base update) k = some (YVal.map (merge_dicts m1 m2)))
  ∧ (∀ (base update : YDict) (k : String) (v : YVal),
       (update.map Prod.fst).Nodup →
       lookupKey update k = some v →
       (∀ m1 m2, ¬(lookupKey base k = some (YVal.map m1) ∧ v = YVal.map m2)) →
       lookupKey (merge_dicts base update) k = some v)
  ∧ (∀ (base update : YDict) (k : String),
       lookupKey update k = none →
       lookupKey (merge_dicts base update) k = lookupKey base k)
  ∧ (∀ (fuel : Nat) (resolve : String → String → String) (fs : DocFS)
       (path : String) (stack : List String) (doc : YDict),
       load_composed_yaml_fuel resolve fs fuel path stack = .ok doc →
       lookupKey doc "compose" = none) := by
  refine ⟨?_, ?_, ?_, ?_⟩
  · intro base update k m1 m2 hnd h1 h2
    rw [lookup_merge_of_update_some base update k _ hnd h2]
    simp [mergedValue, h1]
  · intro base update k v hnd h2 h3
    rw [lookup_merge_of_update_some base update k v hnd h2]
    cases v with
    | map m2 =>
      simp only [mergedValue]
      cases hl : lookupKey base k with
      | none => rfl
      | some w =>
        cases w with
        | map m1 => exact absurd ⟨hl, rfl⟩ (h3 m1 m2)
        | null => rfl
        | bool b => rfl
        | int n => rfl
        | str s => rfl
        | list items => rfl
    | null => rfl
    | bool b => rfl
    | int n => rfl
    | str s => rfl
    | list items => rfl
  · intro base update k h
    exact lookup_merge_of_update_none base update k h
  · exact fun fuel => load_composed_fuel_ok_no_compose fuel

/-- Witness for C1 at concrete inputs: overlapping mappings merge
recursively, an overlapping list replaces wholesale, an untouched key
survives, and a concrete composed load result carries no `compose` key. -/
theorem compose_resolution_deep_merge_witness :
    lookupKey (merge_dicts [("m", YVal.map [("x", YVal.int 1)]), ("a", YVal.int 7)]
        [("m", YVal.map [("y", YVal.int 2)]), ("b", YVal.int 5)]) "m"
      = some (YVal.map (merge_dicts [("x", YVal.int 1)] [("y", YVal.int 2)]))
  ∧ lookupKey (merge_dicts [("a", YVal.int 7)] [("a", YVal.list [YVal.int 9])]) "a"
      = some (YVal.list [YVal.int 9])
  ∧ lookupKey (merge_dicts [("a", YVal.int 7)] [("b", YVal.int 5)]) "a"
      = lookupKey [("a", YVal.int 7)] "a"
  ∧ lookupKey [("t", YVal.str "B"), ("u", YVal.int 1)] "compose" = none :=
  ⟨compose_resolution_deep_merge.1 _ _ "m" [("x", YVal.int 1)] [("y", YVal.int 2)]
      (by decide) rfl rfl,
   compose_resolution_deep_merge.2.1 _ _ "a" (YVal.list [YVal.int 9]) (by decide) rfl
      (by intro m1 m2 hc; exact absurd hc.2 (by simp)),
   compose_resolution_deep_merge.2.2.1 _ _ "a" rfl,
   compose_resolution_deep_merge.2.2.2 2 (fun _ e => e)
      [("base", [("t", YVal.str "B")]),
       ("child", [("compose", YVal.str "base"), ("u", YVal.int 1)])]
      "child" [] _ (by simp [load_composed_yaml_fuel, loadParentsGo, getComposeList,
        yTruthy, lookupKey, merge_dicts, setKey, removeKey])⟩

/-- C2: a path revisited within its own ancestry raises the composition-cycle
error carrying the full chain of visited paths; resolution never loops (the
canonical fuel is never exhausted); and because frame child resolution loads
each child through `load_matrix_config` with the parent's stack extended by
the frame's own path, a child path that falls back into that ancestry fails
with the same cycle error. -/
theorem composition_cycle_detected :
    (∀ (resolve : String → String → String) (fs : DocFS) (path : String)
       (stack : List String), path ∈ stack →
       load_composed_yaml resolve fs path stack = .error (.cycle (stack ++ [path])))
  ∧ (∀ (resolve : String → String → String) (fs : DocFS) (path : String)
       (stack : List String),
       load_composed_yaml resolve fs path stack ≠ .error .outOfFuel)
  ∧ (∀ (resolve : String → String → String) (fs : DocFS) (framePath refStr : String)
       (params ovr : Option YDict) (stack : List String),
       resolve framePath refStr ∈ stack ++ [framePath] →
       load_matrix_config resolve fs (resolve framePath refStr) params ovr
           (stack ++ [framePath])
         = .error (.cycle ((stack ++ [framePath]) ++ [resolve framePath refStr]))) :=
  ⟨load_composed_cycle,
   load_composed_never_exhausts,
   fun resolve fs framePath refStr params ovr stack h =>
     load_matrix_cycle resolve fs _ params ovr _ h⟩

/-- Witness for C2: a self-composing document and a self-referencing frame
child both fail with the concrete cycle chain. -/
theorem composition_cycle_detected_witness :
    load_composed_yaml (fun _ e => e) [] "a.yaml" ["a.yaml"]
      = .error (.cycle ["a.yaml", "a.yaml"])
  ∧ load_matrix_config (fun _ e => e) [("f.yaml", [("type", YVal.str "frame")])]
      "f.yaml" none none ["f.yaml"]
      = .error (.cycle ["f.yaml", "f.yaml"]) :=
  ⟨composition_cycle_detected.1 (fun _ e => e) [] "a.yaml" ["a.yaml"] (by decide),
   composition_cycle_detected.2.2 (fun _ e => e) [("f.yaml", [("type", YVal.str "frame")])]
      "f.yaml" "f.yaml" none none [] (by decide)⟩

/-- C3 counterexample: with row fields `[dim1.X, dim2.Y]` (last = `dim2.Y`)
the compiler emits the last row field's REMOVEFILTERS clause FIRST, not
last as the claim states. -/
theorem show_as_argument_order_counterexample :
    apply_show_as (some "Percent of column total") "[M]"
      [{ expression := "dim1.X", table := some "dim1", column := "X" },
       { expression := "dim2.Y", table := some "dim2", column := "Y" }]
      = "DIVIDE([M], CALCULATE([M], REMOVEFILTERS(dim2[Y]), REMOVEFILTERS(dim1)))"
  ∧ ("DIVIDE([M], CALCULATE([M], REMOVEFILTERS(dim2[Y]), REMOVEFILTERS(dim1)))"
      ≠ "DIVIDE([M], CALCULATE([M], REMOVEFILTERS(dim1), REMOVEFILTERS(dim2[Y])))") :=
  ⟨rfl, by decide⟩

/-- C3 (amended): when `show_as` normalizes to `"percent of column total"`
and at least one row field exists, the measure is rewritten to
`DIVIDE(M, CALCULATE(M, ...))` where the LAST row field contributes its full
qualified reference as the FIRST `REMOVEFILTERS` argument and every other
row field follows, in declaration order, contributing its table name
(falling back to its qualified reference when it has no table); any other
`show_as` value, a missing `show_as`, or an empty row list leaves the
measure unchanged. -/
theorem show_as_percent_rewrite :
    (∀ (s measure : String) (rest : List FieldReference) (lastField : FieldReference),
       asciiLower (pyStrip s) = showAsPercentColumnTotal →
       apply_show_as (some s) measure (rest ++ [lastField]) =
         "DIVIDE(" ++ measure ++ ", CALCULATE(" ++ measure ++ ", "
           ++ String.intercalate ", "
             (("REMOVEFILTERS(" ++ lastField.daxReference ++ ")")
               :: rest.map (fun f => "REMOVEFILTERS(" ++ tableOrRef f ++ ")")) ++ "))")
  ∧ (∀ (s measure : String) (row_fields : List FieldReference),
       asciiLower (pyStrip s) ≠ showAsPercentColumnTotal →
       apply_show_as (some s) measure row_fields = measure)
  ∧ (∀ (measure : String) (row_fields : List FieldReference),
       apply_show_as none measure row_fields = measure)
  ∧ (∀ (s measure : String), apply_show_as (some s) measure [] = measure) := by
  refine ⟨?_, ?_, ?_, ?_⟩
  · intro s measure rest lastField h
    have hs : s ≠ "" := by
      intro he
      subst he
      exact absurd h (by decide)
    simp [apply_show_as, hs, h, List.getLast?_concat, List.dropLast_concat]
  · intro s measure row_fields h
    by_cases hs : s = ""
    · simp [apply_show_as, hs]
    · cases hlast : row_fields.getLast? <;> simp [apply_show_as, hs, h, hlast]
  · intro measure row_fields
    rfl
  · intro s measure
    by_cases hs : s = "" <;> simp [apply_show_as, hs]

/-- Witness for C3 (amended) at concrete inputs. -/
theorem show_as_percent_rewrite_witness :
    apply_show_as (some " Percent of Column Total ") "[M]"
      ([{ expression := "dim1.X", table := some "dim1", column := "X" }]
        ++ [{ expression := "dim2.Y", table := some "dim2", column := "Y" }]) =
      "DIVIDE(" ++ "[M]" ++ ", CALCULATE(" ++ "[M]" ++ ", "
        ++ String.intercalate ", "
          (("REMOVEFILTERS("
             ++ FieldReference.daxReference
                  { expression := "dim2.Y", table := some "dim2", column := "Y" } ++ ")")
            :: [{ expression := "dim1.X", table := some "dim1", column := "X" }].map
                 (fun f => "REMOVEFILTERS(" ++ tableOrRef f ++ ")")) ++ "))"
  ∧ apply_show_as (some "percent of row total") "[M]"
      [{ expression := "dim1.X", table := some "dim1", column := "X" }] = "[M]" :=
  ⟨show_as_percent_rewrite.1 " Percent of Column Total " "[M]" _ _ (by decide),
   show_as_percent_rewrite.2.1 "percent of row total" "[M]" _ (by decide)⟩

/-- C4: on rows `["{{dim.City}}"]` and values `[{id: "Total Sales",
label: "Sales"}]` with no filters and no define, the extracted row field is
`dim[City]` and the compiled statement is exactly the claimed text. -/
theorem example_matrix_statement :
    extract_field_references ["{{dim.City}}"]
      = .ok [{ expression := "dim.City", table := some "dim", column := "City" }]
  ∧ (build_matrix_query
      { rows := [{ template := "{{dim.City}}" }]
        values := [{ id := "Total Sales", label := some "Sales" }] }
      [{ expression := "dim.City", table := some "dim", column := "City" }]).map
      DaxQueryPlan.statement
      = .ok "EVALUATE\nSUMMARIZECOLUMNS(\n    dim[City],\n    \"Sales\", [Total Sales]\n)" :=
  ⟨rfl, rfl⟩

theorem mapM_except_ok_length {α β ε : Type} (f : α → Except ε β) :
    ∀ (l : List α) (ys : List β), l.mapM f = .ok ys → ys.length = l.length := by
  intro l
  induction l with
  | nil =>
    intro ys h
    simp only [List.mapM_nil] at h
    cases h
    rfl
  | cons a tl ih =>
    intro ys h
    rw [List.mapM_cons] at h
    cases hfa : f a with
    | error e => rw [hfa] at h; simp [Bind.bind, Except.bind] at h
    | ok b =>
      rw [hfa] at h
      cases hrest : tl.mapM f with
      | error e =>
        rw [hrest] at h
        simp [Bind.bind, Except.bind, Pure.pure, Except.pure] at h
      | ok bs =>
        rw [hrest] at h
        simp only [Bind.bind, Except.bind, Pure.pure, Except.pure] at h
        cases h
        simpa using ih bs hrest

/-- C5: with at least one filter the compiled body is wrapped in
`CALCULATETABLE` with one clause per filter in declared order (the clause
list is the element-wise image of the filter list); an expression filter
passes through verbatim; a field/include filter renders as
`table[column] IN { "v1", ... }` preserving include order with embedded
quotes doubled. -/
theorem filters_wrap_calculatetable :
    (∀ (f : MatrixFilterConfig) (e : String),
       f.expression = some e → e ≠ "" → format_filter_clause f = .ok e)
  ∧ (∀ (f : MatrixFilterConfig) (fld : String) (inc : List String),
       (f.expression = none ∨ f.expression = some "") →
       f.field = some fld → f.includeVals = some inc →
       fld ≠ "" → inc ≠ [] → fld.data.contains '.' = true →
       ∃ columnReference, format_column_reference fld = .ok columnReference ∧
         format_filter_clause f = .ok (columnReference ++ " IN \x7b "
           ++ String.intercalate ", " (inc.map (fun v => "\"" ++ escape_quotes v ++ "\""))
           ++ " \x7d"))
  ∧ (∀ (config : MatrixConfig) (row_fields : List FieldReference) (plan : DaxQueryPlan),
       config.filters ≠ [] →
       build_matrix_query config row_fields = .ok plan →
       ∃ clauses, config.filters.mapM format_filter_clause = .ok clauses ∧
         clauses.length = config.filters.length ∧
         plan.statement = String.intercalate "\n\n"
           ((match plan.define with
             | some db => ["DEFINE\n" ++ db]
             | none => []) ++
            ["EVALUATE\n" ++ ("CALCULATETABLE(\n"
              ++ indent_block (summarize_columns
                   (row_fields.map FieldReference.daxReference)
                   (config.values.map (fun v =>
                     "\"" ++ escape_quotes (labelOrId v) ++ "\", "
                       ++ apply_show_as v.show_as (format_measure v.id) row_fields)))
              ++ ",\n"
              ++ String.intercalate ",\n" (clauses.map (fun line => "    " ++ line))
              ++ "\n)")])) := by
  refine ⟨?_, ?_, ?_⟩
  · intro f e he hne
    simp [format_filter_clause, he, hne]
  · intro f fld inc hexpr hfld hinc hfldne hincne hdot
    have hincne2 : inc.isEmpty = false := by
      cases inc with
      | nil => exact absurd rfl hincne
      | cons a tl => rfl
    have hdot2 : '.' ∈ fld.data := by simpa [List.elem_eq_mem] using hdot
    have hcr : format_column_reference fld = .ok
        (pyStrip (String.mk (fld.data.takeWhile (fun c => c != '.'))) ++ "["
          ++ pyStrip (String.mk ((fld.data.dropWhile (fun c => c != '.')).drop 1)) ++ "]") := by
      simp [format_column_reference, split_field_reference, hdot2]
    refine ⟨_, hcr, ?_⟩
    rcases hexpr with h0 | h0 <;>
      simp [format_filter_clause, h0, hfld, hinc, hfldne, hincne2, hcr]
  · intro config row_fields plan hne hbuild
    rw [build_matrix_query] at hbuild
    cases hm : config.filters.mapM format_filter_clause with
    | error e => rw [hm] at hbuild; exact absurd hbuild (by simp)
    | ok clauses =>
      rw [hm] at hbuild
      have hlen := mapM_except_ok_length format_filter_clause config.filters clauses hm
      have hclne : clauses.isEmpty = false := by
        cases clauses with
        | cons a tl => rfl
        | nil =>
          cases hfc : config.filters with
          | nil => exact absurd hfc hne
          | cons b tl2 => rw [hfc] at hlen; simp at hlen
      refine ⟨clauses, rfl, hlen, ?_⟩
      simp only [hclne, Bool.false_eq_true, if_false] at hbuild
      cases hbuild
      simp [wrap_with_filters, hclne]

/-- Witness for C5 at the spec's Example 2: the expression filter passes
verbatim, the include filter renders with preserved order, and the compiled
statement wraps the body in `CALCULATETABLE`. -/
theorem filters_wrap_calculatetable_witness :
    format_filter_clause { expression := some "dim[City] <> \"Unknown\"" }
      = .ok "dim[City] <> \"Unknown\""
  ∧ (∃ columnReference, format_column_reference "dim.City" = .ok columnReference ∧
      format_filter_clause
        { field := some "dim.City", includeVals := some ["Seattle", "Portland"] }
        = .ok (columnReference ++ " IN \x7b "
            ++ String.intercalate ", "
              (["Seattle", "Portland"].map (fun v => "\"" ++ escape_quotes v ++ "\""))
            ++ " \x7d"))
  ∧ (∃ plan clauses,
      build_matrix_query
        { rows := [{ template := "{{dim.City}}" }]
          values := [{ id := "Total Sales", label := some "Sales" }]
          filters := [{ field := some "dim.City", includeVals := some ["Seattle", "Portland"] }] }
        [{ expression := "dim.City", table := some "dim", column := "City" }] = .ok plan ∧
      [({ field := some "dim.City", includeVals := some ["Seattle", "Portland"] } :
          MatrixFilterConfig)].mapM format_filter_clause = .ok clauses ∧
      clauses.length = 1 ∧
      plan.statement = "EVALUATE\nCALCULATETABLE(\n    SUMMARIZECOLUMNS(\n        dim[City],\n        \"Sales\", [Total Sales]\n    ),\n    dim[City] IN \x7b \"Seattle\", \"Portland\" \x7d\n)") := by
  refine ⟨filters_wrap_calculatetable.1 _ _ rfl (by decide),
    filters_wrap_calculatetable.2.1 _ "dim.City" ["Seattle", "Portland"]
      (Or.inl rfl) rfl rfl (by decide) (by decide) (by decide), ?_⟩
  obtain ⟨clauses, h1, h2, h3⟩ := filters_wrap_calculatetable.2.2
    { rows := [{ template := "{{dim.City}}" }]
      values := [{ id := "Total Sales", label := some "Sales" }]
      filters := [{ field := some "dim.City", includeVals := some ["Seattle", "Portland"] }] }
    [{ expression := "dim.City", table := some "dim", column := "City" }]
    _ (by decide) rfl
  have he : [({ field := some "dim.City", includeVals := some ["Seattle", "Portland"] } :
      MatrixFilterConfig)].mapM format_filter_clause
      = Except.ok ["dim[City] IN \x7b \"Seattle\", \"Portland\" \x7d"] := rfl
  rw [he] at h1
  cases h1
  exact ⟨_, _, rfl, he, by decide, by rw [h3]; rfl⟩

theorem parse_field_expression {g : String} {r : FieldReference}
    (h : parse_field g = .ok r) : r.expression = cleanExpression g := by
  simp only [parse_field] at h
  split at h
  · exact absurd h (by simp)
  · split at h
    · split at h
      · exact absurd h (by simp)
      · cases h; rfl
    · cases h; rfl

theorem any_beq_eq_mem (l : List FieldReference) (x : String) :
    l.any (fun q => q.expression == x)
      = decide (x ∈ l.map FieldReference.expression) := by
  induction l with
  | nil => rfl
  | cons r rest ih =>
    simp only [List.any_cons, List.map_cons, List.mem_cons, ih]
    by_cases h : x = r.expression
    · simp [h]
    · simp [h, Ne.symm h]

theorem extractGo_ok_map (gs : List String) :
    ∀ (acc refs : List FieldReference),
      extractGo gs acc = .ok refs →
      refs.map FieldReference.expression
        = (gs.map cleanExpression).foldl
            (fun a x => if x ∈ a then a else a ++ [x])
            (acc.map FieldReference.expression) := by
  induction gs with
  | nil =>
    intro acc refs h
    simp only [extractGo] at h
    cases h
    simp
  | cons g rest ih =>
    intro acc refs h
    simp only [extractGo] at h
    cases hp : parse_field g with
    | error e => rw [hp] at h; simp at h
    | ok r =>
      rw [hp] at h
      have hr := parse_field_expression hp
      rw [List.map_cons, List.foldl_cons, ih (setdefaultRef acc r) refs h, ← hr]
      congr 1
      cases hany : acc.any (fun q => q.expression == r.expression) with
      | true =>
        have hmem : r.expression ∈ acc.map FieldReference.expression := by
          have hq := any_beq_eq_mem acc r.expression
          rw [hany] at hq
          exact of_decide_eq_true hq.symm
        simp [setdefaultRef, hany, hmem]
      | false =>
        have hmem : r.expression ∉ acc.map FieldReference.expression := by
          have hq := any_beq_eq_mem acc r.expression
          rw [hany] at hq
          exact of_decide_eq_false hq.symm
        simp [setdefaultRef, hany, hmem]

theorem foldl_dedup_nodup :
    ∀ (l acc : List String), acc.Nodup →
      (l.foldl (fun a x => if x ∈ a then a else a ++ [x]) acc).Nodup := by
  intro l
  induction l with
  | nil => intro acc h; simpa using h
  | cons x rest ih =>
    intro acc h
    rw [List.foldl_cons]
    by_cases hc : x ∈ acc
    · rw [if_pos hc]
      exact ih acc h
    · rw [if_neg hc]
      exact ih _ (by simp [List.nodup_append, h, hc])

/-- C6: over any ordered template list whose placeholders all parse,
`extract_field_references` returns exactly one reference per distinct
normalized expression, in first-appearance order across the templates, with
no duplicate expressions. -/
theorem extract_references_dedup_order :
    ∀ (templates : List String) (refs : List FieldReference),
      extract_field_references templates = .ok refs →
      refs.map FieldReference.expression
          = dedupFirst (normalized_placeholder_exprs templates)
        ∧ (refs.map FieldReference.expression).Nodup
        ∧ refs.length = (dedupFirst (normalized_placeholder_exprs templates)).length := by
  intro templates refs h
  rw [extract_field_references] at h
  have hmap := extractGo_ok_map _ [] refs h
  have hmap2 : refs.map FieldReference.expression
      = dedupFirst (normalized_placeholder_exprs templates) := by
    rw [hmap]
    rfl
  refine ⟨hmap2, ?_, ?_⟩
  · rw [hmap2]
    exact foldl_dedup_nodup _ [] (by simp)
  · calc refs.length = (refs.map FieldReference.expression).length :=
          (List.length_map _ _).symm
      _ = (dedupFirst (normalized_placeholder_exprs templates)).length := by rw [hmap2]

/-- Witness for C6: three templates carrying two distinct expressions (one
repeated, one with a filter suffix) yield exactly the two references in
first-appearance order. -/
theorem extract_references_dedup_order_witness :
    ([{ expression := "dim.Account", table := some "dim", column := "Account" },
      { expression := "fact.metric", table := some "fact", column := "metric" }] :
        List FieldReference).map FieldReference.expression
        = dedupFirst (normalized_placeholder_exprs
            ["{{dim.Account}}", "{{fact.metric | default(0)}}", "{{dim.Account}}"])
      ∧ (([{ expression := "dim.Account", table := some "dim", column := "Account" },
           { expression := "fact.metric", table := some "fact", column := "metric" }] :
             List FieldReference).map FieldReference.expression).Nodup
      ∧ ([{ expression := "dim.Account", table := some "dim", column := "Account" },
          { expression := "fact.metric", table := some "fact", column := "metric" }] :
            List FieldReference).length
          = (dedupFirst (normalized_placeholder_exprs
              ["{{dim.Account}}", "{{fact.metric | default(0)}}", "{{dim.Account}}"])).length :=
  extract_references_dedup_order
    ["{{dim.Account}}", "{{fact.metric | default(0)}}", "{{dim.Account}}"] _ rfl

theorem mem_foldl_dedup :
    ∀ (l acc : List String) (x : String),
      x ∈ l.foldl (fun a y => if y ∈ a then a else a ++ [y]) acc ↔ x ∈ acc ∨ x ∈ l := by
  intro l
  induction l with
  | nil => intro acc x; simp
  | cons y rest ih =>
    intro acc x
    rw [List.foldl_cons]
    by_cases hy : y ∈ acc
    · rw [if_pos hy, ih]
      constructor
      · rintro (h | h)
        · exact Or.inl h
        · exact Or.inr (List.mem_cons_of_mem _ h)
      · rintro (h | h)
        · exact Or.inl h
        · rcases List.mem_cons.mp h with h2 | h2
          · exact Or.inl (h2 ▸ hy)
          · exact Or.inr h2
    · rw [if_neg hy, ih]
      simp only [List.mem_append, List.mem_singleton, List.mem_cons]
      tauto

theorem mem_dedupFirst (l : List String) (x : String) : x ∈ dedupFirst l ↔ x ∈ l := by
  rw [dedupFirst, mem_foldl_dedup]
  simp

theorem mem_sortedSet (l : List String) (x : String) : x ∈ sortedSet l ↔ x ∈ l := by
  rw [sortedSet, (List.perm_insertionSort _ _).mem_iff, mem_dedupFirst]

theorem sortedSet_nodup (l : List String) : (sortedSet l).Nodup :=
  (List.perm_insertionSort _ _).nodup_iff.mpr (foldl_dedup_nodup l [] (by simp))

theorem sortedSet_sorted (l : List String) : (sortedSet l).Sorted (· ≤ ·) :=
  List.sorted_insertionSort _ _

/-- C7: the missing-name asymmetry.  `_render_with_context` (the binder used
for allow-listed row labels and filter expressions) fails whenever any
placeholder's base expression is absent from the context, with a message
listing the missing names — a list that is deduplicated, ascending, and
covers exactly the missing names — tagged with the field's location, and
succeeds otherwise; whereas `render_template`'s per-placeholder substitution
returns the empty string for an absent base expression and never fails. -/
theorem binding_missing_names_asymmetry :
    (∀ (value : String) (context : List (String × String)) (location : String),
       missing_placeholder_names value context ≠ [] →
       render_with_context value context location = .error (.unresolved
         ("Unresolved template variable(s) in " ++ location ++ ": "
           ++ String.intercalate ", " (sortedSet (missing_placeholder_names value context)))))
  ∧ (∀ (value : String) (context : List (String × String)) (location : String),
       missing_placeholder_names value context = [] →
       render_with_context value context location
         = .ok (render_template value (context.map (fun kv => (kv.1, PyVal.vstr kv.2)))))
  ∧ (∀ (values : List (String × PyVal)) (group : String),
       containsKey values (cleanExpression group) = false →
       substExpr values group = "")
  ∧ (∀ l : List String, (sortedSet l).Nodup ∧ (sortedSet l).Sorted (· ≤ ·)
       ∧ ∀ x, x ∈ sortedSet l ↔ x ∈ l) := by
  refine ⟨?_, ?_, ?_, ?_⟩
  · intro value context location h
    have hne : (missing_placeholder_names value context).isEmpty = false := by
      cases hm : missing_placeholder_names value context with
      | nil => exact absurd hm h
      | cons a tl => rfl
    simp [render_with_context, hne]
  · intro value context location h
    simp [render_with_context, h]
  · intro values group h
    rw [substExpr]
    cases hl : lookupKey values (cleanExpression group) with
    | none => rfl
    | some v => rw [containsKey, hl] at h; simp at h
  · intro l
    exact ⟨sortedSet_nodup l, sortedSet_sorted l, mem_sortedSet l⟩

/-- Witness for C7: a row label with two distinct missing names (one
repeated) fails with the sorted deduplicated listing; a fully bound label
succeeds; an absent key substitutes the empty string. -/
theorem binding_missing_names_asymmetry_witness :
    render_with_context "{{b}} {{a}} {{b}}" [("c", "1")] "row label"
      = .error (.unresolved ("Unresolved template variable(s) in row label: "
          ++ String.intercalate ", "
            (sortedSet (missing_placeholder_names "{{b}} {{a}} {{b}}" [("c", "1")]))))
  ∧ render_with_context "{{c}}!" [("c", "1")] "filter expression"
      = .ok (render_template "{{c}}!" ([("c", "1")].map (fun kv => (kv.1, PyVal.vstr kv.2))))
  ∧ substExpr [("c", PyVal.vstr "1")] "a" = "" :=
  ⟨binding_missing_names_asymmetry.1 "{{b}} {{a}} {{b}}" [("c", "1")] "row label" (by decide),
   binding_missing_names_asymmetry.2.1 "{{c}}!" [("c", "1")] "filter expression" (by decide),
   binding_missing_names_asymmetry.2.2.1 [("c", PyVal.vstr "1")] "a" (by decide)⟩

theorem lookup_removeKey_ne {α : Type} (l : List (String × α)) {k s : String}
    (h : s ≠ k) : lookupKey (removeKey l k) s = lookupKey l s := by
  induction l with
  | nil => rfl
  | cons kv rest ih =>
    obtain ⟨k0, v0⟩ := kv
    by_cases hk : k0 = k
    · subst hk
      have h2 : k0 ≠ s := fun hq => h (hq ▸ rfl)
      rw [removeKey, List.filter_cons_of_neg (by simp)]
      rw [removeKey] at ih
      rw [ih]
      simp [lookupKey, h2]
    · rw [removeKey, List.filter_cons_of_pos (by simp [hk])]
      rw [removeKey] at ih
      by_cases hs : k0 = s
      · simp [lookupKey, hs]
      · simp [lookupKey, hs, ih]

theorem renderCharsF_congr (c1 c2 : List (String × PyVal))
    (h : ∀ g, substExpr c1 g = substExpr c2 g) :
    ∀ (n : Nat) (l : List Char), renderCharsF c1 n l = renderCharsF c2 n l := by
  intro n
  induction n with
  | zero => intro l; rfl
  | succ n ih =>
    intro l
    cases l with
    | nil => rfl
    | cons c rest =>
      by_cases hc : c = '{'
      · subst hc
        cases rest with
        | nil =>
          rw [renderCharsF, renderCharsF, ih]
          all_goals intro rest2 h1 h2
          all_goals simp at h2
        | cons ch rest2 =>
          by_cases hc2 : ch = '{'
          · subst hc2
            rw [renderCharsF, renderCharsF]
            cases htc : takeContent rest2 with
            | some pr =>
              obtain ⟨content, r2⟩ := pr
              simp only [htc, h, ih]
            | none => simp only [htc, ih]
          · rw [renderCharsF, renderCharsF, ih]
            all_goals intro rest3 h1 h2
            all_goals exact hc2 (by injection h2)
      · rw [renderCharsF, renderCharsF, ih]
        all_goals intro rest2 h1 h2
        all_goals exact hc h1

/-- C10: a placeholder whose base expression is bound to `None` renders as
the empty string, and rendering under a context with a `None`-bound key is
identical to rendering with that key removed — an explicitly null parameter
is indistinguishable from an omitted one at the `render_template` interface,
so its placeholder never renders as the text `"None"`. -/
theorem none_binding_renders_empty :
    (∀ (values : List (String × PyVal)) (g : String),
       lookupKey values (cleanExpression g) = some PyVal.vnone →
       substExpr values g = "")
  ∧ (∀ (template k : String) (values : List (String × PyVal)),
       lookupKey values k = some PyVal.vnone →
       render_template template values = render_template template (removeKey values k)) := by
  constructor
  · intro values g h
    rw [substExpr, h]
  · intro template k values h
    rw [render_template, render_template]
    refine congrArg String.mk (renderCharsF_congr values (removeKey values k) ?_ _ _)
    intro g
    by_cases hg : cleanExpression g = k
    · rw [substExpr, substExpr, hg, h, lookup_removeKey_self]
    · rw [substExpr, substExpr, lookup_removeKey_ne _ hg]

/-- Witness for C10: with `a` bound to `None`, the template renders exactly
as with `a` absent. -/
theorem none_binding_renders_empty_witness :
    substExpr [("a", PyVal.vnone)] "a" = ""
  ∧ render_template "x{{a}}y" [("a", PyVal.vnone), ("b", PyVal.vstr "B")]
      = render_template "x{{a}}y"
          (removeKey [("a", PyVal.vnone), ("b", PyVal.vstr "B")] "a") :=
  ⟨none_binding_renders_empty.1 [("a", PyVal.vnone)] "a" rfl,
   none_binding_renders_empty.2 "x{{a}}y" "a"
     [("a", PyVal.vnone), ("b", PyVal.vstr "B")] rfl⟩

/-- C9 counterexample: with value `{id: "M", label: "Sales"}` and a first
row binding `"M"` to a non-null value, no declared value id is absent or
null, yet the check raises — it keys on the alias (`label or id`), not the
id. -/
theorem values_present_checks_alias_counterexample :
    ensure_values_present [{ id := "M", label := some "Sales" }]
        [[("M", PyVal.vint 1)]]
      = .error "Value 'Sales' missing from dataset row"
  ∧ isNoneAt [("M", PyVal.vint 1)]
      (MatrixValueConfig.id { id := "M", label := some "Sales" }) = false :=
  ⟨rfl, rfl⟩

/-- C9 (amended): with the check enabled and a non-empty dataset, matrix
execution raises exactly when some declared value's alias — its label,
defaulting to its id — is absent or null on the first row; an empty dataset
skips the check; the check never modifies the dataset (it only reads the
first row and returns unit). -/
theorem values_present_invariant :
    (∀ (values : List MatrixValueConfig) (firstRow : List (String × PyVal))
       (rest : List (List (String × PyVal))),
       ensure_values_present values (firstRow :: rest) = .ok () ↔
         ∀ v ∈ values, isNoneAt firstRow (labelOrId v) = false)
  ∧ (∀ values : List MatrixValueConfig, ensure_values_present values [] = .ok ()) := by
  constructor
  · intro values firstRow rest
    rw [ensure_values_present]
    cases hf : values.find? (fun v => isNoneAt firstRow (labelOrId v)) with
    | some v =>
      simp only [hf]
      constructor
      · intro h
        exact absurd h (by simp)
      · intro hall
        have hv := List.find?_some hf
        have hmem := List.mem_of_find?_eq_some hf
        rw [hall v hmem] at hv
        cases hv
    | none =>
      simp only [hf]
      constructor
      · intro _ v hmem
        have hnp := List.find?_eq_none.mp hf v hmem
        simpa using hnp
      · intro _
        trivial
  · intro values
    rfl

/-- Witness for C9 (amended): a dataset keyed by the alias passes the
check. -/
theorem values_present_invariant_witness :
    ensure_values_present [{ id := "M", label := some "Sales" }]
      [[("Sales", PyVal.vint 5)]] = .ok () :=
  (values_present_invariant.1 [{ id := "M", label := some "Sales" }]
    [("Sales", PyVal.vint 5)] []).mpr (by decide)

/-- C8: on a document with non-empty `rows` and `values` but no `type` key,
`load_visual_config` routes to the matrix branch (the source comments
"Treat missing type as matrix for backward compatibility") but then fails,
because the pydantic model declares `type` as a required field — while the
identical document with `type: matrix` validates; and any `type` other than
`"matrix"`/`"frame"` fails with the unsupported-visual-type error. -/
theorem missing_type_fails_validation :
    load_visual_config (fun _ e => e)
      [("m.yaml", [("rows", YVal.list [YVal.str "{{dim.City}}"]),
                   ("values", YVal.list [YVal.map [("id", YVal.str "Total")]])])]
      "m.yaml" = .error (.validation "type: field required")
  ∧ load_visual_config (fun _ e => e)
      [("m.yaml", [("type", YVal.str "matrix"),
                   ("rows", YVal.list [YVal.str "{{dim.City}}"]),
                   ("values", YVal.list [YVal.map [("id", YVal.str "Total")]])])]
      "m.yaml" = .ok (VisualConfig.matrix
        { rows := [{ template := "{{dim.City}}" }]
          values := [{ id := "Total", label := some "Total" }] })
  ∧ (∀ (resolve : String → String → String) (fs : DocFS) (path : String)
       (merged : YDict) (t : String),
       load_composed_yaml resolve fs path [] = .ok merged →
       lookupKey merged "type" = some (.str t) →
       t ≠ "matrix" → t ≠ "frame" →
       load_visual_config resolve fs path
         = .error (.unsupportedType (t ++ " in " ++ path))) := by
  refine ⟨?_, ?_, ?_⟩
  · have h1 : load_composed_yaml (fun _ e => e)
        [("m.yaml", [("rows", YVal.list [YVal.str "{{dim.City}}"]),
                     ("values", YVal.list [YVal.map [("id", YVal.str "Total")]])])]
        "m.yaml" []
        = .ok [("rows", YVal.list [YVal.str "{{dim.City}}"]),
               ("values", YVal.list [YVal.map [("id", YVal.str "Total")]])] := by
      simp [load_composed_yaml, load_composed_yaml_fuel, loadParentsGo, getComposeList,
        yTruthy, lookupKey, merge_dicts, setKey, removeKey]
    rw [load_visual_config, h1]
    rfl
  · have h1 : load_composed_yaml (fun _ e => e)
        [("m.yaml", [("type", YVal.str "matrix"),
                     ("rows", YVal.list [YVal.str "{{dim.City}}"]),
                     ("values", YVal.list [YVal.map [("id", YVal.str "Total")]])])]
        "m.yaml" []
        = .ok [("type", YVal.str "matrix"),
               ("rows", YVal.list [YVal.str "{{dim.City}}"]),
               ("values", YVal.list [YVal.map [("id", YVal.str "Total")]])] := by
      simp [load_composed_yaml, load_composed_yaml_fuel, loadParentsGo, getComposeList,
        yTruthy, lookupKey, merge_dicts, setKey, removeKey]
    rw [load_visual_config, h1]
    rfl
  · intro resolve fs path merged t hload htype hm hf
    rw [load_visual_config, hload]
    simp only [Bind.bind, Except.bind, htype]
    simp [isStrEq, isNullY, hm, hf, pyStrY, throw, throwThe, MonadExceptOf.throw]

/-- Witness for C8: a concrete `type: widget` document fails with the
unsupported-visual-type error. -/
theorem missing_type_fails_validation_witness :
    load_visual_config (fun _ e => e) [("w.yaml", [("type", YVal.str "widget")])] "w.yaml"
      = .error (.unsupportedType ("widget" ++ " in " ++ "w.yaml")) := by
  have h1 : load_composed_yaml (fun _ e => e)
      [("w.yaml", [("type", YVal.str "widget")])] "w.yaml" []
      = .ok [("type", YVal.str "widget")] := by
    simp [load_composed_yaml, load_composed_yaml_fuel, loadParentsGo, getComposeList,
      yTruthy, lookupKey, merge_dicts, setKey, removeKey]
  exact missing_type_fails_validation.2.2 (fun _ e => e)
    [("w.yaml", [("type", YVal.str "widget")])] "w.yaml" [("type", YVal.str "widget")]
    "widget" h1 rfl (by decide) (by decide)

end Praeparo
